import Mathlib

/-!
Verification development for the NS-API scrapper core (`core/scrapper.py`).

The development is a shallow embedding of the module's data model and
operations.  The HTML/DOM fetch-and-render layer is, as in the design
document, an external collaborator: a `Page` is modelled as the record of
the query results the scrapper extracts from it (text of the synopsis
element, `src` of the player iframe, and so on), and a `World` packages
the collaborator functions (dynamic page fetch, raw byte fetch, provider
grabber, provider-specific manifest extraction).  Machine state
(per-entity page caches and resolved-field slots) is passed explicitly.
Python exceptions are modelled with `Except`; byte strings as `List Nat`.
-/

deriving instance DecidableEq for Except

namespace NSAPI

/-- Outcome of a raw transport `get`: HTTP status, payload bytes
(`.content` in the source) and the decoded payload text (`.text`). -/
structure Response where
  status : Nat
  body : List Nat
  text : String
deriving DecidableEq

/-- The `requests` library's `Response.ok`: `True` unless the status code
is a 4xx or 5xx error. -/
def responseOk (status : Nat) : Bool :=
  !(400 ≤ status && status < 600)

/-! ## Python string primitives

The scrapper lives on Python `str` operations.  They are embedded here
on character lists (with `String.mk`/`String.data` at the boundaries),
by structural recursion so that every concrete instance evaluates. -/

/-- Python's `s.split(sep)` for a one-character separator: the pieces
between occurrences, empty pieces kept. -/
def splitChar (sep : Char) : List Char → List (List Char)
  | [] => [[]]
  | c :: rest =>
      let r := splitChar sep rest
      if c = sep then [] :: r
      else
        match r with
        | [] => [[c]]
        | piece :: pieces => (c :: piece) :: pieces

/-- Python's `s.split()` (no separator): split on whitespace runs,
dropping empty pieces.  The accumulator carries the current word
reversed. -/
def splitWsAux : List Char → List Char → List (List Char)
  | acc, [] => if acc = [] then [] else [acc.reverse]
  | acc, c :: rest =>
      if c.isWhitespace then
        if acc = [] then splitWsAux [] rest
        else acc.reverse :: splitWsAux [] rest
      else splitWsAux (c :: acc) rest

/-- Python's `s.split()` (split on whitespace, no empties). -/
def splitWs (l : List Char) : List (List Char) :=
  splitWsAux [] l

/-- Python's `s.split(sep)` for a nonempty multi-character separator,
written with an explicit fuel argument so the recursion is structural;
the fuel is the input length, which the scan never exhausts (each step
consumes at least one character), so the `0` case is unreachable. -/
def splitSeqFuel (sep : List Char) : Nat → List Char → List Char →
    List (List Char)
  | _, acc, [] => [acc.reverse]
  | 0, acc, l => [acc.reverse ++ l]
  | fuel + 1, acc, c :: rest =>
      if sep.isPrefixOf (c :: rest) then
        acc.reverse :: splitSeqFuel sep fuel [] (rest.drop (sep.length - 1))
      else splitSeqFuel sep fuel (c :: acc) rest

/-- Python's `s.split(sep)` for a nonempty separator. -/
def splitSeq (sep l : List Char) : List (List Char) :=
  splitSeqFuel sep l.length [] l

/-- Python's `s.replace(old, new)` (all occurrences), as
`new.join(s.split(old))`. -/
def replaceSeq (old new l : List Char) : List Char :=
  List.intercalate new (splitSeq old l)

/-- Modelled from the spec: `utils.get_extension` (not under `src/`) — the
file extension of an image, "inferred from source URL": the part of the
URL after its last dot. -/
def get_extension (url : String) : String :=
  String.mk ((splitChar '.' url.data).getLastD [])

/-- The `Image` dataclass: raw bytes, extension, originating URL.
`__post_init__` fills the extension from the URL when absent. -/
structure Image where
  raw : List Nat
  ext : String
  url : String
deriving DecidableEq

/-- Construct an `Image` the way the scrapper does (`Image(raw, url = src)`):
the extension is inferred from the URL by `__post_init__`. -/
def mkImage (raw : List Nat) (url : String) : Image :=
  { raw := raw, ext := get_extension url, url := url }

/-- Modelled from the spec: `utils.parse_name` (not under `src/`) — the
"raw name" of a show or episode, parsed from its URL: the last path
segment. -/
def parse_name (url : String) : String :=
  String.mk ((splitChar '/' url.data).getLastD [])

/-- Modelled from the spec: `utils.format_name` (not under `src/`) — the
"display name (derived by normalizing the raw name)": the normalization
replaces the dash separators of the URL slug with spaces. -/
def format_name (raw : String) : String :=
  String.mk (List.intercalate [' '] (splitChar '-' raw.data))

/-- Modelled from the spec: `utils.complete_url` (not under `src/`) —
resolves a site-relative reference against the site root, leaving
absolute references unchanged. -/
def complete_url (u : String) : String :=
  if "https://".data.isPrefixOf u.data then u
  else "https://neko-sama.fr" ++ u

/-! ## Quality resolution

`utils.parse_qualities` is not under `src/`; its selection step is
modelled from the spec (§4.3): sort the manifest by quality level
ascending; `best` → maximum level, `worst` → minimum level, `middle` →
lower-middle entry, numeric → smallest absolute distance with ties broken
toward the lower level; an empty manifest is a hard `ManifestEmpty`
failure. -/

/-- A quality specification: one of the symbolic tokens or a literal
numeric quality level. -/
inductive QSpec
  | best
  | worst
  | middle
  | level (n : Int)
deriving DecidableEq

/-- The hard failure of quality resolution. -/
inductive QErr
  | manifestEmpty
deriving DecidableEq

/-- Comparison of manifest entries by quality level. -/
def qle (a b : Int × String) : Prop :=
  a.1 ≤ b.1

instance : DecidableRel qle := fun a b =>
  inferInstanceAs (Decidable (a.1 ≤ b.1))

instance : IsTotal (Int × String) qle := ⟨fun a b => le_total a.1 b.1⟩

instance : IsTrans (Int × String) qle := ⟨fun _ _ _ h h' => le_trans h h'⟩

/-- Sort manifest entries by quality level ascending. -/
def qSort (m : List (Int × String)) : List (Int × String) :=
  m.insertionSort qle

/-- Last entry of a nonempty list, carried as head plus tail. -/
def lastEntry (p : Int × String) : List (Int × String) → Int × String
  | [] => p
  | q :: rest => lastEntry q rest

/-- Scan for the entry whose level is nearest to `target`, keeping the
earliest entry on ties (on an ascending list: the lower level). -/
def nearestTo (target : Int) (best : Int × String) :
    List (Int × String) → Int × String
  | [] => best
  | p :: rest =>
      nearestTo target
        (if (p.1 - target).natAbs < (best.1 - target).natAbs then p else best)
        rest

/-- Modelled from the spec: the selection step of `utils.parse_qualities`
(not under `src/`): resolve a quality spec against a manifest of
(level, URL) pairs to exactly one URL, or fail on an empty manifest. -/
def select_quality (manifest : List (Int × String)) (q : QSpec) :
    Except QErr String :=
  match qSort manifest with
  | [] => .error .manifestEmpty
  | p :: rest =>
      match q with
      | .worst => .ok p.2
      | .best => .ok (lastEntry p rest).2
      | .middle => .ok (((p :: rest).getD (rest.length / 2) p).2)
      | .level t => .ok (nearestTo t p rest).2

/-! ## Pages, the collaborator world, and entity state -/

/-- One `.holder` entry of the episode-thumbnail container: the `href` of
its first `<a>` and the `src` of its first `<img>`.  `none` models a
missing element or attribute (whose access raises in the source and is
caught by the surrounding `try`). -/
structure Thumb where
  href : Option String
  imgSrc : Option String
deriving DecidableEq

/-- A rendered page, modelled as the record of the DOM query results the
scrapper extracts from it (the selector layer itself is the out-of-scope
collaborator).  `none` models a selector that matches nothing. -/
structure Page where
  synopsisText : Option String
  infoItems : List String
  loadingSrc : Option String
  headStyle : Option String
  tagItems : Option (List (String × String))
  episodeLinks : List String
  thumbs : List Thumb
  iframeSrc : Option String
deriving DecidableEq

/-- The response of the dynamic (rendered) page fetch: HTTP status plus
the rendered page. -/
structure DynResponse where
  status : Nat
  html : Page

/-- The collaborator world: dynamic page fetches (`HTMLSession.get` plus
render), raw transport fetches (`Session.get`), the provider grabber
(`grabber.grab_request`, out of scope, a pure `url → text` function), and
the provider-specific manifest extraction performed inside
`utils.parse_qualities` (opaque per the spec, `text → (level, URL) list`). -/
structure World where
  dynaResp : String → DynResponse
  rawGet : String → Response
  grab : String → String
  manifestOf : String → List (Int × String)

/-- `Comm.get_dyna`: fetch and render the page; when the response status
is not a success the failure is only logged (second component `true`);
the rendered page is returned unconditionally. -/
def comm_get_dyna (w : World) (url : String) : Page × Bool :=
  let r := w.dynaResp url
  (r.html, !responseOk r.status)

/-- Mutable state of an `Anime` object: its page-cache slot and the six
derived-field slots (all `None` at construction; `picture` and `poster`
are present as attributes but no resolver ever writes them). -/
structure AnimeState where
  url : String
  cache : Option Page
  synopsis : Option String
  data : Option (List (String × String))
  picture : Option Image
  poster : Option Image
  tags : Option (List (String × String))
  episodes : Option (List String)
deriving DecidableEq

/-- Mutable state of an `Episode` object: page-cache slot and the five
derived-field slots of its `auto` list. -/
structure EpisodeState where
  url : String
  cache : Option Page
  picture : Option Image
  poster : Option Image
  tags : Option (List (String × String))
  data : Option (List (String × String))
  provider : Option String
deriving DecidableEq

/-- A fresh `Anime(url, comm)`: every dynamic attribute and the page
cache start out as `None`. -/
def mkAnime (url : String) : AnimeState :=
  { url := url, cache := none, synopsis := none, data := none,
    picture := none, poster := none, tags := none, episodes := none }

/-- A fresh `Episode(url, anime)`: every dynamic attribute and the page
cache start out as `None`. -/
def mkEpisode (url : String) : EpisodeState :=
  { url := url, cache := none, picture := none, poster := none,
    tags := none, data := none, provider := none }

/-- `Anime.get_page(cache, force)`: use the cached page unless `force`
is set or nothing is cached, else fetch; store the page when the `cache`
flag is set.  The third component counts dynamic page fetches. -/
def anime_get_page (a : AnimeState) (w : World) (useCache force : Bool) :
    Page × AnimeState × Nat :=
  match a.cache, force with
  | some p, false =>
      (p, if useCache then { a with cache := some p } else a, 0)
  | some _, true =>
      let p := (comm_get_dyna w a.url).1
      (p, if useCache then { a with cache := some p } else a, 1)
  | none, _ =>
      let p := (comm_get_dyna w a.url).1
      (p, if useCache then { a with cache := some p } else a, 1)

/-- `Episode.get_page(cache, force)`: identical single-slot discipline on
the episode's own cache. -/
def ep_get_page (e : EpisodeState) (w : World) (useCache force : Bool) :
    Page × EpisodeState × Nat :=
  match e.cache, force with
  | some p, false =>
      (p, if useCache then { e with cache := some p } else e, 0)
  | some _, true =>
      let p := (comm_get_dyna w e.url).1
      (p, if useCache then { e with cache := some p } else e, 1)
  | none, _ =>
      let p := (comm_get_dyna w e.url).1
      (p, if useCache then { e with cache := some p } else e, 1)

/-! ## Python exceptions escaping the scrapper -/

/-- Errors that escape the scrapper's methods.  `unboundLocal` is the
`UnboundLocalError`/`NameError` raised when, after an exception was
caught and logged, the method goes on to read a local that the failed
`try` block never assigned.  `attributeError` is raised by
`Episode.__getattribute__` when the `auto` list names a resolver
(`get_poster`, `get_tags`, `get_data`) that the class does not define.
`fetching` is `consts.FetchingErorr(text, status_code)` raised on a
non-success segment fetch; `manifestEmptyErr` models the hard failure of
quality resolution on an empty manifest. -/
inductive Err
  | unboundLocal
  | attributeError
  | manifestEmptyErr
  | fetching (text : String) (status : Nat)
deriving DecidableEq

/-! ## Field resolvers -/

/-- Python's `raw.split('\n' if '\n' in raw else None)`: split on
newlines when one is present, otherwise on whitespace runs with empty
pieces dropped (so an empty or all-whitespace string yields `[]`). -/
def py_split (raw : String) : List String :=
  if raw.data.contains '\n' then (splitChar '\n' raw.data).map String.mk
  else (splitWs raw.data).map String.mk

/-- The parse loop of `Anime.get_data`: `k, *v = raw.split(...)` then
`data[k] = ' '.join(v)`.  An element whose split is empty raises a
`ValueError`, which the surrounding `try` catches: the loop stops and the
entries collected so far are kept (`data` was initialised before the
`try`).  The Python dict is modelled as the assoc list of insertions. -/
def parse_info_items : List String → List (String × String)
  | [] => []
  | raw :: rest =>
      match py_split raw with
      | [] => []
      | k :: v =>
          (k, String.mk (List.intercalate [' '] (v.map String.data))) ::
            parse_info_items rest

/-- The poster-source extraction of `Anime.get_poster`:
`style.split('url(')[1].split(')')[0]`.  `none` models the `IndexError`
raised (and caught) when the style contains no `url(`. -/
def poster_src_of_style (style : String) : Option String :=
  match splitSeq "url(".data style.data with
  | _ :: piece :: _ => some (String.mk ((splitChar ')' piece).headD piece))
  | _ => none

/-- Lexicographic order on URLs, as Python's string `<` used by
`episodes.sort()`: compare the character sequences. -/
def urlLe (a b : String) : Prop :=
  a.data ≤ b.data

instance : DecidableRel urlLe := fun a b =>
  inferInstanceAs (Decidable (a.data ≤ b.data))

instance : IsTotal String urlLe := ⟨fun a b => le_total a.data b.data⟩

instance : IsTrans String urlLe := ⟨fun _ _ _ h h' => le_trans h h'⟩

/-- The episode-listing normalisation of `Anime.get_episodes`: the set
comprehension deduplicates the links, `episodes.sort()` sorts them
ascending. -/
def sorted_episode_links (links : List String) : List String :=
  (links.dedup).insertionSort urlLe

/-- `Anime.get_synopsis`: obtain the page, find the synopsis text.  When
the selector matches nothing the raised exception is caught and logged,
but the following `self.synopsis = syn` reads the local `syn` that was
never assigned, raising `UnboundLocalError`.  On success the resolved
value is stored in the `synopsis` slot. -/
def anime_get_synopsis (a : AnimeState) (w : World) (useCache force : Bool) :
    Except Err (String × AnimeState) × Nat :=
  let r := anime_get_page a w useCache force
  match r.1.synopsisText with
  | some syn => (.ok (syn, { r.2.1 with synopsis := some syn }), r.2.2)
  | none => (.error .unboundLocal, r.2.2)

/-- `Anime.get_data`: obtain the page, parse the info items.  `data` is
initialised before the `try`, so a parse failure is genuinely swallowed
and a (possibly partial) mapping is stored and returned. -/
def anime_get_data (a : AnimeState) (w : World) (useCache force : Bool) :
    Except Err (List (String × String) × AnimeState) × Nat :=
  let r := anime_get_page a w useCache force
  let d := parse_info_items r.1.infoItems
  (.ok (d, { r.2.1 with data := some d }), r.2.2)

/-- `Anime.get_picture`: obtain the page, read the `src` of the first
`.loading` element, fetch those bytes.  When the selector matches
nothing, the exception is caught and logged but the final
`return Image(raw, url = src)` reads the unassigned locals, raising
`NameError`.  On success the `picture` slot is NOT written (the source
omits the assignment), so the value is recomputed on every access. -/
def anime_get_picture (a : AnimeState) (w : World) (useCache force : Bool) :
    Except Err (Image × AnimeState) × Nat :=
  let r := anime_get_page a w useCache force
  match r.1.loadingSrc with
  | some src => (.ok (mkImage (w.rawGet src).body src, r.2.1), r.2.2)
  | none => (.error .unboundLocal, r.2.2)

/-- `Anime.get_poster`: obtain the page, read the `#head` style, extract
the `url(...)` value, then fetch the bytes (outside the `try`).  A
missing element or a style without `url(` is caught and logged, but the
following `self.comm.session.get(src)` reads the unassigned local `src`,
raising `NameError`.  The `poster` slot is never written. -/
def anime_get_poster (a : AnimeState) (w : World) (useCache force : Bool) :
    Except Err (Image × AnimeState) × Nat :=
  let r := anime_get_page a w useCache force
  match r.1.headStyle with
  | some style =>
      match poster_src_of_style style with
      | some src => (.ok (mkImage (w.rawGet src).body src, r.2.1), r.2.2)
      | none => (.error .unboundLocal, r.2.2)
  | none => (.error .unboundLocal, r.2.2)

/-- `Anime.get_tags`: obtain the page, find the tag items, build the
name→URL mapping (hrefs completed to absolute URLs).  When the `.tag`
container is missing, `None.find` raises, the exception is caught and
logged, and `self.tags = tags` then reads the unassigned local,
raising `UnboundLocalError`.  On success the `tags` slot is stored. -/
def anime_get_tags (a : AnimeState) (w : World) (useCache force : Bool) :
    Except Err (List (String × String) × AnimeState) × Nat :=
  let r := anime_get_page a w useCache force
  match r.1.tagItems with
  | some items =>
      let t := items.map (fun it => (it.1, complete_url it.2))
      (.ok (t, { r.2.1 with tags := some t }), r.2.2)
  | none => (.error .unboundLocal, r.2.2)

/-- `Anime.get_episodes` with the default `filter = None` (the path taken
by attribute access): collect one absolute link per matching element,
deduplicate via the set comprehension, sort ascending, store the result
in the `episodes` slot.  Episodes are identified by their URLs. -/
def anime_get_episodes (a : AnimeState) (w : World) (useCache force : Bool) :
    Except Err (List String × AnimeState) × Nat :=
  let r := anime_get_page a w useCache force
  let eps := sorted_episode_links r.1.episodeLinks
  (.ok (eps, { r.2.1 with episodes := some eps }), r.2.2)

/-- `Episode.get_provider`: obtain the episode's page, read the `src` of
the player iframe, and split out the provider name for logging.  A
missing iframe — or a `src` without `//` (`IndexError` in
`provider.split('//')[1]`) — is caught and logged, but the following log
line reads the unassigned `provider_name`, raising `NameError`.  On
success the `provider` slot is stored. -/
def ep_get_provider (e : EpisodeState) (w : World) (useCache force : Bool) :
    Except Err (String × EpisodeState) × Nat :=
  let r := ep_get_page e w useCache force
  match r.1.iframeSrc with
  | some src =>
      match splitSeq "//".data src.data with
      | _ :: _ :: _ =>
          (.ok (src, { r.2.1 with provider := some src }), r.2.2)
      | _ => (.error .unboundLocal, r.2.2)
  | none => (.error .unboundLocal, r.2.2)

/-- The thumbnail scan of `Episode.get_picture`: find the holder whose
completed `<a>` href equals the episode URL and fetch its `<img>` bytes.
A missing `<a>`/`<img>` or attribute raises inside the `try`, which the
method catches; after the loop (or the caught exception) it logs
"vanished from parent" and implicitly returns `None`. -/
def find_thumb (w : World) (url : String) : List Thumb → Option Image
  | [] => none
  | t :: rest =>
      match t.href with
      | none => none
      | some h =>
          if complete_url h = url then
            match t.imgSrc with
            | none => none
            | some src => some (mkImage (w.rawGet src).body src)
          else find_thumb w url rest

/-- `Episode.get_picture`: note it reads the PARENT anime's page
(`self.anime.get_page`), never raises, never writes the `picture` slot,
and returns `None` when the episode is absent from the listing. -/
def ep_get_picture (e : EpisodeState) (a : AnimeState) (w : World)
    (useCache force : Bool) : Option Image × AnimeState × Nat :=
  let r := anime_get_page a w useCache force
  (find_thumb w e.url r.1.thumbs, r.2.1, r.2.2)

/-! ## Attribute access (`__getattribute__`) -/

/-- The names of the `auto` list of `Anime.__getattribute__`. -/
inductive AnimeField
  | synopsis
  | data
  | picture
  | poster
  | tags
  | episodes
deriving DecidableEq

/-- The names of the `auto` list of `Episode.__getattribute__`. -/
inductive EpisodeField
  | picture
  | poster
  | tags
  | data
  | provider
deriving DecidableEq

/-- The (dynamically typed) value a derived-field read can produce.
`vNone` is the Python `None` that `Episode.get_picture` returns when the
episode has vanished from its parent's listing. -/
inductive AValue
  | vStr (s : String)
  | vDict (d : List (String × String))
  | vImg (i : Image)
  | vEps (l : List String)
  | vNone
deriving DecidableEq

/-- The slot of an `Anime` derived field, as an `AValue`. -/
def aSlot (f : AnimeField) (a : AnimeState) : Option AValue :=
  match f with
  | .synopsis => a.synopsis.map .vStr
  | .data => a.data.map .vDict
  | .picture => a.picture.map .vImg
  | .poster => a.poster.map .vImg
  | .tags => a.tags.map .vDict
  | .episodes => a.episodes.map .vEps

/-- The slot of an `Episode` derived field, as an `AValue`. -/
def eSlot (f : EpisodeField) (e : EpisodeState) : Option AValue :=
  match f with
  | .picture => e.picture.map .vImg
  | .poster => e.poster.map .vImg
  | .tags => e.tags.map .vDict
  | .data => e.data.map .vDict
  | .provider => e.provider.map .vStr

/-- Reading a derived field of an `Anime` (`Anime.__getattribute__`): a
non-`None` slot is returned as is; a `None` slot invokes the field's
resolver with the default flags (`cache = True`, `force = False`).  The
`Nat` counts dynamic page fetches. -/
def anime_read (f : AnimeField) (a : AnimeState) (w : World) :
    Except Err (AValue × AnimeState) × Nat :=
  match aSlot f a with
  | some v => (.ok (v, a), 0)
  | none =>
      match f with
      | .synopsis =>
          let r := anime_get_synopsis a w true false
          ((r.1.map fun p => (.vStr p.1, p.2)), r.2)
      | .data =>
          let r := anime_get_data a w true false
          ((r.1.map fun p => (.vDict p.1, p.2)), r.2)
      | .picture =>
          let r := anime_get_picture a w true false
          ((r.1.map fun p => (.vImg p.1, p.2)), r.2)
      | .poster =>
          let r := anime_get_poster a w true false
          ((r.1.map fun p => (.vImg p.1, p.2)), r.2)
      | .tags =>
          let r := anime_get_tags a w true false
          ((r.1.map fun p => (.vDict p.1, p.2)), r.2)
      | .episodes =>
          let r := anime_get_episodes a w true false
          ((r.1.map fun p => (.vEps p.1, p.2)), r.2)

/-- Reading a derived field of an `Episode` (`Episode.__getattribute__`):
a non-`None` slot is returned as is; otherwise the named resolver is
invoked.  The class defines only `get_picture` and `get_provider`;
looking up `get_poster`, `get_tags` or `get_data` raises
`AttributeError`.  Because `get_picture` reads the parent anime's page,
the parent's state is threaded through as well. -/
def ep_read (f : EpisodeField) (e : EpisodeState) (a : AnimeState)
    (w : World) : Except Err (AValue × EpisodeState × AnimeState) × Nat :=
  match eSlot f e with
  | some v => (.ok (v, e, a), 0)
  | none =>
      match f with
      | .picture =>
          let r := ep_get_picture e a w true false
          (.ok ((r.1.map .vImg).getD .vNone, e, r.2.1), r.2.2)
      | .provider =>
          let r := ep_get_provider e w true false
          ((r.1.map fun p => (.vStr p.1, p.2, a)), r.2)
      | .poster => (.error .attributeError, 0)
      | .tags => (.error .attributeError, 0)
      | .data => (.error .attributeError, 0)

/-! ## Episode Index (`Anime.get_episode`) -/

/-- Python's `str(index).zfill(2)`: pad the decimal representation with
leading zeros to width two. -/
def zfill2 (index : Nat) : String :=
  if index < 10 then "0" ++ toString index else toString index

/-- Python's `s.replace(old, new, 1)` for a one-character `old`, on
character lists: replace the first occurrence only. -/
def replaceFirstChar : List Char → Char → List Char → List Char
  | [], _, _ => []
  | c :: rest, t, repl =>
      if c = t then repl ++ rest else c :: replaceFirstChar rest t repl

/-- `Anime.get_episode`'s URL construction: swap `/info/` for
`/episode/`, then — by reversing, replacing the first `_` with the
reversed `'-' + zfill(2) + '_'`, and reversing back — replace the LAST
underscore of the URL with `-NN_`. -/
def get_episode_url (animeUrl : String) (index : Nat) : String :=
  let i := ("-" ++ zfill2 index ++ "_").data.reverse
  let ep := replaceSeq "/info/".data "/episode/".data animeUrl.data
  String.mk (replaceFirstChar ep.reverse '_' i).reverse

/-- Digit-run replacement on a reversed character list: drop the first
(maximal) digit run encountered and splice in the reversed replacement;
`none` when the list has no digit. -/
def replaceLastDigitRunRev (repl : List Char) : List Char → Option (List Char)
  | [] => none
  | c :: rest =>
      if c.isDigit then some (repl.reverse ++ rest.dropWhile Char.isDigit)
      else (replaceLastDigitRunRev repl rest).map (fun l => c :: l)

/-- Modelled from the spec: the claim's construction rule — "replacing
the last numeric path segment of the show's URL pattern with the
zero-padded index".  The pattern rewrite swaps `/info/` for `/episode/`;
the last maximal digit run of the URL is then replaced by the
zero-padded index (unchanged when no digit occurs). -/
def spec_episode_url (animeUrl : String) (index : Nat) : String :=
  let ep := replaceSeq "/info/".data "/episode/".data animeUrl.data
  match replaceLastDigitRunRev (zfill2 index).data ep.reverse with
  | some l => String.mk l.reverse
  | none => String.mk ep

/-! ## Download pipeline (`Episode.download`) -/

/-- Observable events of the download pipeline: a segment fetch, a
progress-callback invocation, and the final file write. -/
inductive DlEv
  | fetchSeg (i : Nat) (url : String)
  | progressCb (i n : Nat)
  | fileWrite (path : String) (content : List Nat)
deriving DecidableEq

/-- The segment-list construction of `Episode.download`:
`[s for s in res.split('\n') if s.startswith('https://')]`. -/
def extract_segments (res : String) : List String :=
  ((splitChar '\n' res.data).map String.mk).filter
    (fun s => "https://".data.isPrefixOf s.data)

/-- The segment loop of `Episode.download`: fetch each segment in order;
a non-success status raises `FetchingErorr(text, status_code)`
immediately; otherwise the optional callback is invoked with
`(i, total)` and the payload bytes are appended to the accumulator. -/
def seg_loop (w : World) (useCb : Bool) (total : Nat) :
    Nat → List String → List Nat → Except Err (List Nat) × List DlEv
  | _, [], acc => (.ok acc, [])
  | i, link :: rest, acc =>
      let segment := w.rawGet link
      if responseOk segment.status then
        let r := seg_loop w useCb total (i + 1) rest (acc ++ segment.body)
        (r.1, DlEv.fetchSeg i link ::
          ((if useCb then [DlEv.progressCb i total] else []) ++ r.2))
      else
        (.error (.fetching segment.text segment.status),
          [DlEv.fetchSeg i link])

/-- `Episode.download(path, quality, ext, looping_callback)`: resolve the
provider, grab the provider response, resolve the quality to a playlist
URL, fetch the playlist text, filter the segment lines, run the segment
loop, and finally write the accumulated bytes to `path` (with `.mp4`
appended when `ext`).  Any raised error aborts before the file write.
Returns the outcome (the modified path and updated episode state, or the
error) together with the event trace. -/
def ep_download (w : World) (e : EpisodeState) (path : String) (q : QSpec)
    (ext : Bool) (useCb : Bool) :
    Except Err (String × EpisodeState) × List DlEv :=
  match ep_get_provider e w true false with
  | (.error er, _) => (.error er, [])
  | (.ok (provider_url, e'), _) =>
      let raw := w.grab provider_url
      match select_quality (w.manifestOf raw) q with
      | .error _ => (.error .manifestEmptyErr, [])
      | .ok url =>
          let res := (w.rawGet url).text
          let segments := extract_segments res
          match seg_loop w useCb segments.length 0 segments [] with
          | (.error er, evs) => (.error er, evs)
          | (.ok content, evs) =>
              let path' := if ext then path ++ ".mp4" else path
              (.ok (path', e'), evs ++ [DlEv.fileWrite path' content])

/-! ## Batch download (`Anime.download`) -/

/-- Observable events of the batch download: one episode download (URL
and destination path) and the unconditional pause after it. -/
inductive BatchEv
  | epDownload (url : String) (path : String)
  | pauseEv (seconds : Nat)
deriving DecidableEq

/-- The body of `Anime.download`'s loop over the episode URLs: download
each (a fresh `Episode(ep, self)` object) to `dir + raw_name + '.mp4'`
with `ext = False`, collect the path, and sleep for `pause` seconds after
every episode.  An error raised by an episode download propagates and
aborts the whole batch. -/
def batch_loop (w : World) (dir : String) (pause : Nat) (q : QSpec) :
    List String → Except Err (List String) × List BatchEv
  | [] => (.ok [], [])
  | u :: rest =>
      let p := dir ++ parse_name u ++ ".mp4"
      match (ep_download w (mkEpisode u) p q false false).1 with
      | .error er => (.error er, [BatchEv.epDownload u p])
      | .ok _ =>
          let r := batch_loop w dir pause q rest
          (r.1.map (fun l => p :: l),
            BatchEv.epDownload u p :: BatchEv.pauseEv pause :: r.2)

/-- The directory normalisation at the top of `Anime.download`:
`if not path[-1] in '/\\': path += '/'` (an empty path raises in the
source and is outside the model). -/
def dir_path (path : String) : String :=
  if path.data.getLastD ' ' = '/' ∨ path.data.getLastD ' ' = '\\' then path
  else path ++ "/"

/-- `Anime.download(path, pause, quality)`: normalise the directory
path, list the episodes via `get_episodes`, and run the sequential loop.
Returns the ordered path list (or the propagated error), the event
trace, and the updated anime state. -/
def anime_download (w : World) (a : AnimeState) (path : String)
    (pause : Nat) (q : QSpec) :
    Except Err (List String) × List BatchEv × AnimeState :=
  let dir := dir_path path
  match anime_get_episodes a w true false with
  | (.ok (eps, a'), _) =>
      let r := batch_loop w dir pause q eps
      (r.1, r.2, a')
  | (.error _, _) => (.error .unboundLocal, [], a)

/-! ## Lemmas about quality resolution -/

theorem lastEntry_mem (p : Int × String) (l : List (Int × String)) :
    lastEntry p l ∈ p :: l := by
  induction l generalizing p with
  | nil => simp [lastEntry]
  | cons q rest ih => exact List.mem_cons_of_mem p (ih q)

theorem sorted_le_lastEntry (p : Int × String) (l : List (Int × String))
    (h : List.Sorted qle (p :: l)) :
    ∀ x ∈ p :: l, x.1 ≤ (lastEntry p l).1 := by
  induction l generalizing p with
  | nil =>
      intro x hx
      rcases List.mem_singleton.1 hx with rfl
      exact le_refl _
  | cons q rest ih =>
      intro x hx
      have hpq : qle p q := (List.sorted_cons.1 h).1 q (by simp)
      have htail : List.Sorted qle (q :: rest) := (List.sorted_cons.1 h).2
      rcases List.mem_cons.1 hx with rfl | hx'
      · exact le_trans hpq (ih q htail q (by simp))
      · exact ih q htail x hx'

theorem sorted_head_le (p : Int × String) (l : List (Int × String))
    (h : List.Sorted qle (p :: l)) :
    ∀ x ∈ p :: l, p.1 ≤ x.1 := by
  intro x hx
  rcases List.mem_cons.1 hx with rfl | hx'
  · exact le_refl _
  · exact (List.sorted_cons.1 h).1 x hx'

theorem nearestTo_mem (t : Int) (l : List (Int × String)) :
    ∀ best, nearestTo t best l ∈ best :: l := by
  induction l with
  | nil => intro best; simp [nearestTo]
  | cons p rest ih =>
      intro best
      show nearestTo t
        (if (p.1 - t).natAbs < (best.1 - t).natAbs then p else best) rest ∈
        best :: p :: rest
      by_cases hc : (p.1 - t).natAbs < (best.1 - t).natAbs
      · rw [if_pos hc]
        rcases List.mem_cons.1 (ih p) with h1 | h1
        · rw [h1]; simp
        · exact List.mem_cons_of_mem _ (List.mem_cons_of_mem _ h1)
      · rw [if_neg hc]
        rcases List.mem_cons.1 (ih best) with h1 | h1
        · rw [h1]; simp
        · exact List.mem_cons_of_mem _ (List.mem_cons_of_mem _ h1)

theorem nearestTo_min (t : Int) (l : List (Int × String)) :
    ∀ best, ∀ x ∈ best :: l,
      ((nearestTo t best l).1 - t).natAbs ≤ (x.1 - t).natAbs := by
  induction l with
  | nil =>
      intro best x hx
      rcases List.mem_singleton.1 hx with rfl
      exact le_refl _
  | cons p rest ih =>
      intro best x hx
      show ((nearestTo t
          (if (p.1 - t).natAbs < (best.1 - t).natAbs then p else best)
          rest).1 - t).natAbs ≤ (x.1 - t).natAbs
      by_cases hc : (p.1 - t).natAbs < (best.1 - t).natAbs
      · rw [if_pos hc]
        have hb : ((nearestTo t p rest).1 - t).natAbs ≤ (p.1 - t).natAbs :=
          ih p p (by simp)
        rcases List.mem_cons.1 hx with rfl | hx'
        · exact le_trans hb (le_of_lt hc)
        rcases List.mem_cons.1 hx' with rfl | hx''
        · exact hb
        · exact ih p x (List.mem_cons_of_mem _ hx'')
      · rw [if_neg hc]
        have hb : ((nearestTo t best rest).1 - t).natAbs ≤
            (best.1 - t).natAbs := ih best best (by simp)
        rcases List.mem_cons.1 hx with rfl | hx'
        · exact hb
        rcases List.mem_cons.1 hx' with rfl | hx''
        · exact le_trans hb (le_of_not_lt hc)
        · exact ih best x (List.mem_cons_of_mem _ hx'')

theorem nearestTo_eq_or_lt (t : Int) (l : List (Int × String)) :
    ∀ best, nearestTo t best l = best ∨
      ((nearestTo t best l).1 - t).natAbs < ((best.1 - t)).natAbs := by
  induction l with
  | nil => intro best; exact Or.inl rfl
  | cons p rest ih =>
      intro best
      have hstep : nearestTo t best (p :: rest) = nearestTo t
          (if (p.1 - t).natAbs < (best.1 - t).natAbs then p else best)
          rest := rfl
      by_cases hc : (p.1 - t).natAbs < (best.1 - t).natAbs
      · rw [hstep, if_pos hc]
        rcases ih p with he | hlt
        · exact Or.inr (by rw [he]; exact hc)
        · exact Or.inr (lt_trans hlt hc)
      · rw [hstep, if_neg hc]
        exact ih best

theorem nearestTo_tie (t : Int) (l : List (Int × String)) :
    ∀ best, List.Sorted qle (best :: l) →
      ∀ x ∈ best :: l,
        (x.1 - t).natAbs = ((nearestTo t best l).1 - t).natAbs →
        (nearestTo t best l).1 ≤ x.1 := by
  induction l with
  | nil =>
      intro best _ x hx _
      rcases List.mem_singleton.1 hx with rfl
      exact le_refl _
  | cons p rest ih =>
      intro best hs x hx hd
      have hstep : nearestTo t best (p :: rest) = nearestTo t
          (if (p.1 - t).natAbs < (best.1 - t).natAbs then p else best)
          rest := rfl
      by_cases hc : (p.1 - t).natAbs < (best.1 - t).natAbs
      · rw [hstep, if_pos hc] at hd ⊢
        have hs' : List.Sorted qle (p :: rest) := (List.sorted_cons.1 hs).2
        rcases List.mem_cons.1 hx with rfl | hx'
        · exfalso
          have hmin : ((nearestTo t p rest).1 - t).natAbs ≤
              (p.1 - t).natAbs := nearestTo_min t rest p p (by simp)
          omega
        · exact ih p hs' x hx' hd
      · rw [hstep, if_neg hc] at hd ⊢
        have hbr : List.Sorted qle (best :: rest) := by
          refine List.sorted_cons.2 ⟨fun b hb => ?_, ?_⟩
          · exact (List.sorted_cons.1 hs).1 b (List.mem_cons_of_mem _ hb)
          · exact (List.sorted_cons.1 (List.sorted_cons.1 hs).2).2
        rcases List.mem_cons.1 hx with rfl | hx'
        · exact ih _ hbr _ (by simp) hd
        rcases List.mem_cons.1 hx' with rfl | hx''
        · rcases nearestTo_eq_or_lt t rest best with he | hlt
          · rw [he]
            exact (List.sorted_cons.1 hs).1 x (by simp)
          · exfalso
            have hnc := le_of_not_lt hc
            omega
        · exact ih _ hbr _ (List.mem_cons_of_mem _ hx'') hd

theorem qSort_ne_nil {m : List (Int × String)} (h : m ≠ []) :
    qSort m ≠ [] := by
  intro hq
  apply h
  have hl := (List.perm_insertionSort qle m).length_eq
  rw [show qSort m = List.insertionSort qle m from rfl] at hq
  rw [hq] at hl
  exact List.length_eq_zero.1 hl.symm

theorem mem_qSort {m : List (Int × String)} {x : Int × String} :
    x ∈ qSort m ↔ x ∈ m :=
  List.mem_insertionSort qle

theorem qSort_sorted (m : List (Int × String)) :
    List.Sorted qle (qSort m) :=
  List.sorted_insertionSort qle m

/-! ## C5 -/

/-- C5: quality resolution.  On every manifest, `best` selects an entry
of maximum level, `worst` one of minimum level, and a numeric spec an
entry at minimal absolute distance from the requested value with ties
broken toward the lower level; on the manifest `{1:u1, 3:u2, 5:u3}`,
`best → u3`, `worst → u1`, numeric `4 → u2` and `middle → u2` (the
lower-middle entry); an empty manifest always fails with
`ManifestEmpty`, never yielding a placeholder URL. -/
theorem quality_resolution_correct :
    (∀ q, select_quality [] q = .error .manifestEmpty) ∧
    (∀ m, m ≠ [] → ∃ e, e ∈ m ∧ select_quality m .best = .ok e.2 ∧
      ∀ x ∈ m, x.1 ≤ e.1) ∧
    (∀ m, m ≠ [] → ∃ e, e ∈ m ∧ select_quality m .worst = .ok e.2 ∧
      ∀ x ∈ m, e.1 ≤ x.1) ∧
    (∀ m t, m ≠ [] → ∃ e, e ∈ m ∧ select_quality m (.level t) = .ok e.2 ∧
      (∀ x ∈ m, (e.1 - t).natAbs ≤ (x.1 - t).natAbs) ∧
      (∀ x ∈ m, (x.1 - t).natAbs = (e.1 - t).natAbs → e.1 ≤ x.1)) ∧
    (select_quality [((1 : Int), "u1"), (3, "u2"), (5, "u3")] .best
        = .ok "u3" ∧
      select_quality [((1 : Int), "u1"), (3, "u2"), (5, "u3")] .worst
        = .ok "u1" ∧
      select_quality [((1 : Int), "u1"), (3, "u2"), (5, "u3")] (.level 4)
        = .ok "u2" ∧
      select_quality [((1 : Int), "u1"), (3, "u2"), (5, "u3")] .middle
        = .ok "u2") := by
  refine ⟨fun q => rfl, ?_, ?_, ?_, by decide⟩
  · intro m hm
    rcases hq : qSort m with _ | ⟨p, rest⟩
    · exact absurd hq (qSort_ne_nil hm)
    · refine ⟨lastEntry p rest, ?_, ?_, ?_⟩
      · exact mem_qSort.1 (by rw [hq]; exact lastEntry_mem p rest)
      · simp [select_quality, hq]
      · intro x hx
        have hx' : x ∈ p :: rest := by rw [← hq]; exact mem_qSort.2 hx
        have hs : List.Sorted qle (p :: rest) := by
          rw [← hq]; exact qSort_sorted m
        exact sorted_le_lastEntry p rest hs x hx'
  · intro m hm
    rcases hq : qSort m with _ | ⟨p, rest⟩
    · exact absurd hq (qSort_ne_nil hm)
    · refine ⟨p, ?_, ?_, ?_⟩
      · exact mem_qSort.1 (by rw [hq]; simp)
      · simp [select_quality, hq]
      · intro x hx
        have hx' : x ∈ p :: rest := by rw [← hq]; exact mem_qSort.2 hx
        have hs : List.Sorted qle (p :: rest) := by
          rw [← hq]; exact qSort_sorted m
        exact sorted_head_le p rest hs x hx'
  · intro m t hm
    rcases hq : qSort m with _ | ⟨p, rest⟩
    · exact absurd hq (qSort_ne_nil hm)
    · have hs : List.Sorted qle (p :: rest) := by
        rw [← hq]; exact qSort_sorted m
      refine ⟨nearestTo t p rest, ?_, ?_, ?_, ?_⟩
      · exact mem_qSort.1 (by rw [hq]; exact nearestTo_mem t rest p)
      · simp [select_quality, hq]
      · intro x hx
        have hx' : x ∈ p :: rest := by rw [← hq]; exact mem_qSort.2 hx
        exact nearestTo_min t rest p x hx'
      · intro x hx hd
        have hx' : x ∈ p :: rest := by rw [← hq]; exact mem_qSort.2 hx
        exact nearestTo_tie t rest p hs x hx' hd

/-- Witness for C5: the theorem applied at the concrete nonempty manifest
`{2:a, 6:b}` for the `best` clause. -/
theorem quality_resolution_correct_witness :
    ([((2 : Int), "a"), (6, "b")] ≠ ([] : List (Int × String))) ∧
    (∃ e, e ∈ [((2 : Int), "a"), (6, "b")] ∧
      select_quality [((2 : Int), "a"), (6, "b")] .best = .ok e.2 ∧
      ∀ x ∈ [((2 : Int), "a"), (6, "b")], x.1 ≤ e.1) :=
  ⟨by decide, quality_resolution_correct.2.1 _ (by decide)⟩

/-! ## Concrete fixtures for witnesses and counterexamples -/

/-- A fully populated concrete page. -/
def pageA : Page :=
  { synopsisText := some "a nice synopsis",
    infoItems := ["Status\nEnded", "Year 2020"],
    loadingSrc := some "https://img.host/pic.png",
    headStyle := some "background-image: url(https://img.host/poster.jpg);",
    tagItems := some [("action", "/tag/action")],
    episodeLinks := ["https://site/episode/10-b_vostfr",
                     "https://site/episode/09-a_vostfr",
                     "https://site/episode/10-b_vostfr"],
    thumbs := [{ href := some "https://site/episode/09-a_vostfr",
                 imgSrc := some "https://img.host/th.png" }],
    iframeSrc := some "https://provider.host/embed/1" }

/-- A page on which every extraction fails (every selector empty). -/
def pageBad : Page :=
  { synopsisText := none, infoItems := [], loadingSrc := none,
    headStyle := none, tagItems := none, episodeLinks := [],
    thumbs := [], iframeSrc := none }

/-- A world whose dynamic fetches succeed with `pageA`. -/
def wOk : World :=
  { dynaResp := fun _ => { status := 200, html := pageA },
    rawGet := fun _ => { status := 200, body := [1, 2], text := "xy" },
    grab := fun _ => "manifest",
    manifestOf := fun _ => [((1 : Int), "https://cdn/pl.m3u8")] }

/-- A world whose dynamic fetches fail with status 404 but render the
same `pageA`. -/
def wBad : World :=
  { dynaResp := fun _ => { status := 404, html := pageA },
    rawGet := fun _ => { status := 200, body := [1, 2], text := "xy" },
    grab := fun _ => "manifest",
    manifestOf := fun _ => [((1 : Int), "https://cdn/pl.m3u8")] }

/-- A world whose dynamic fetches succeed but whose pages have nothing to
extract. -/
def wEmpty : World :=
  { dynaResp := fun _ => { status := 200, html := pageBad },
    rawGet := fun _ => { status := 200, body := [], text := "" },
    grab := fun _ => "",
    manifestOf := fun _ => [] }

/-! ## C10 -/

/-- C10: `Comm.get_dyna` returns the rendered page object for every
response status.  A non-success status is only logged (the boolean
flag), never raised; the page handed to the caller is the rendered
`html` of the response, independent of the status, so the caller cannot
distinguish a failed page load from a successful one at this
interface. -/
theorem get_dyna_never_raises (w w' : World) (url : String)
    (hsame : (w.dynaResp url).html = (w'.dynaResp url).html) :
    (comm_get_dyna w url).1 = (w.dynaResp url).html ∧
    (comm_get_dyna w url).2 = !responseOk (w.dynaResp url).status ∧
    (comm_get_dyna w url).1 = (comm_get_dyna w' url).1 :=
  ⟨rfl, rfl, by simp only [comm_get_dyna, hsame]⟩

/-- Witness for C10: a 404 world and a 200 world rendering the same
page give the caller the same result; the 404 is logged. -/
theorem get_dyna_never_raises_witness :
    (comm_get_dyna wBad "https://site/info/x").1
        = (wBad.dynaResp "https://site/info/x").html ∧
    (comm_get_dyna wBad "https://site/info/x").2
        = !responseOk (wBad.dynaResp "https://site/info/x").status ∧
    (comm_get_dyna wBad "https://site/info/x").1
        = (comm_get_dyna wOk "https://site/info/x").1 :=
  get_dyna_never_raises wBad wOk "https://site/info/x" rfl

/-! ## C6 -/

/-- C6: the single-slot page-cache discipline of `Anime.get_page` and
`Episode.get_page`.  With a cached page and `force` unset the cached
page is returned with no fetch; otherwise a fresh page is fetched.  When
the `cache` flag is set the returned page is stored, replacing any prior
snapshot; when it is unset the entity state is unchanged.  The cache
field is a single `Option` slot, and after any call it holds either the
old snapshot or the page just returned. -/
theorem get_page_cache_discipline :
    (∀ (a : AnimeState) (w : World) (cf f : Bool),
      (∀ p, a.cache = some p → f = false →
        (anime_get_page a w cf f).1 = p ∧
        (anime_get_page a w cf f).2.2 = 0) ∧
      ((a.cache = none ∨ f = true) →
        (anime_get_page a w cf f).1 = (comm_get_dyna w a.url).1 ∧
        (anime_get_page a w cf f).2.2 = 1) ∧
      (cf = true →
        (anime_get_page a w cf f).2.1.cache
          = some (anime_get_page a w cf f).1) ∧
      (cf = false → (anime_get_page a w cf f).2.1 = a) ∧
      ((anime_get_page a w cf f).2.1.cache = a.cache ∨
        (anime_get_page a w cf f).2.1.cache
          = some (anime_get_page a w cf f).1)) ∧
    (∀ (e : EpisodeState) (w : World) (cf f : Bool),
      (∀ p, e.cache = some p → f = false →
        (ep_get_page e w cf f).1 = p ∧
        (ep_get_page e w cf f).2.2 = 0) ∧
      ((e.cache = none ∨ f = true) →
        (ep_get_page e w cf f).1 = (comm_get_dyna w e.url).1 ∧
        (ep_get_page e w cf f).2.2 = 1) ∧
      (cf = true →
        (ep_get_page e w cf f).2.1.cache
          = some (ep_get_page e w cf f).1) ∧
      (cf = false → (ep_get_page e w cf f).2.1 = e) ∧
      ((ep_get_page e w cf f).2.1.cache = e.cache ∨
        (ep_get_page e w cf f).2.1.cache
          = some (ep_get_page e w cf f).1)) := by
  constructor
  · intro a w cf f
    rcases ha : a.cache with _ | p <;> rcases f <;> rcases cf <;>
      simp [anime_get_page, ha]
  · intro e w cf f
    rcases he : e.cache with _ | p <;> rcases f <;> rcases cf <;>
      simp [ep_get_page, he]

/-- Witness for C6: on an anime whose cache holds `pageA`, an unforced
call returns the cached page with no fetch, and a forced caching call
replaces the snapshot with the fresh page. -/
theorem get_page_cache_discipline_witness :
    ((anime_get_page { mkAnime "https://site/info/x" with cache := some pageA }
        wEmpty true false).1 = pageA ∧
      (anime_get_page { mkAnime "https://site/info/x" with cache := some pageA }
        wEmpty true false).2.2 = 0) ∧
    ((anime_get_page { mkAnime "https://site/info/x" with cache := some pageA }
        wEmpty true true).1
        = (comm_get_dyna wEmpty "https://site/info/x").1 ∧
      (anime_get_page { mkAnime "https://site/info/x" with cache := some pageA }
        wEmpty true true).2.2 = 1) ∧
    (anime_get_page { mkAnime "https://site/info/x" with cache := some pageA }
        wEmpty true true).2.1.cache
      = some (anime_get_page { mkAnime "https://site/info/x" with
          cache := some pageA } wEmpty true true).1 := by
  refine ⟨?_, ?_, ?_⟩
  · exact (get_page_cache_discipline.1 _ wEmpty true false).1 pageA rfl rfl
  · exact (get_page_cache_discipline.1 _ wEmpty true true).2.1 (Or.inr rfl)
  · exact (get_page_cache_discipline.1 _ wEmpty true true).2.2.1 rfl

/-! ## C9 -/

/-- Modelled from the spec: a "well-formed absolute HTTPS reference"
(§6): the line starts with the `https://` scheme-and-authority marker,
has a nonempty remainder, and contains no whitespace. -/
def wellFormedHttpsRef (s : String) : Bool :=
  "https://".data.isPrefixOf s.data && decide (8 < s.data.length) &&
    !(s.data.any Char.isWhitespace)

/-- C9, counterexample: the pipeline's segment filter is the literal
prefix test `s.startswith('https://')`, not well-formedness.  On the
playlist `"https://cdn/s0\nhttps:// not a reference\n#EXTM3U"` the
malformed line `"https:// not a reference"` (whitespace inside, so not a
well-formed absolute HTTPS reference) is collected as a segment, so the
collected list is not the list of well-formed lines. -/
theorem segment_filter_prefix_only_cex :
    extract_segments "https://cdn/s0\nhttps:// not a reference\n#EXTM3U"
      = ["https://cdn/s0", "https:// not a reference"] ∧
    wellFormedHttpsRef "https:// not a reference" = false ∧
    extract_segments "https://cdn/s0\nhttps:// not a reference\n#EXTM3U"
      ≠ (["https://cdn/s0", "https:// not a reference", "#EXTM3U"]).filter
          wellFormedHttpsRef := by
  refine ⟨by decide, by decide, by decide⟩

/-- C9, amended: the segment list built from the playlist text consists
of exactly the newline-delimited lines that start with the literal
prefix `https://`, collected in the order they appear (a sublist of the
line list); no other line is collected. -/
theorem segment_lines_characterisation (res : String) :
    List.Sublist (extract_segments res)
      ((splitChar '\n' res.data).map String.mk) ∧
    ∀ s, s ∈ extract_segments res ↔
      s ∈ (splitChar '\n' res.data).map String.mk ∧
        "https://".data.isPrefixOf s.data = true := by
  constructor
  · exact List.filter_sublist _
  · intro s
    simp [extract_segments, List.mem_filter]

/-! ## C8 -/

/-- Splitting a list at the first occurrence of a character:
`replaceFirstChar` substitutes exactly there. -/
theorem replaceFirstChar_split {t : Char} {l : List Char} (h : t ∈ l) :
    ∃ l₁ l₂, l = l₁ ++ t :: l₂ ∧ t ∉ l₁ ∧
      ∀ repl, replaceFirstChar l t repl = l₁ ++ repl ++ l₂ := by
  induction l with
  | nil => cases h
  | cons c rest ih =>
      by_cases hc : c = t
      · subst hc
        exact ⟨[], rest, rfl, by simp,
          fun repl => by simp [replaceFirstChar]⟩
      · have h' : t ∈ rest := by
          rcases List.mem_cons.1 h with h1 | h1
          · exact absurd h1.symm hc
          · exact h1
        rcases ih h' with ⟨l₁, l₂, he, hn, hr⟩
        refine ⟨c :: l₁, l₂, by rw [he]; rfl, ?_, ?_⟩
        · intro hmem
          rcases List.mem_cons.1 hmem with h2 | h2
          · exact hc h2.symm
          · exact hn h2
        · intro repl
          simp [replaceFirstChar, hc, hr repl]

/-- C8, counterexample: on the show URL `https://a/info/10_vostfr` and
index 7, `Anime.get_episode` inserts `-07` before the LAST underscore,
producing `https://a/episode/10-07_vostfr`; the URL's last numeric path
segment `10` is not replaced by the zero-padded index, so the result
differs from the claim's construction rule
(`https://a/episode/07_vostfr`). -/
theorem episode_url_mechanism_cex :
    get_episode_url "https://a/info/10_vostfr" 7
      = "https://a/episode/10-07_vostfr" ∧
    spec_episode_url "https://a/info/10_vostfr" 7
      = "https://a/episode/07_vostfr" ∧
    get_episode_url "https://a/info/10_vostfr" 7
      ≠ spec_episode_url "https://a/info/10_vostfr" 7 := by
  refine ⟨by decide, by decide, by decide⟩

/-- C8, amended: `Anime.get_episode` deterministically rewrites the show
URL by replacing `/info/` with `/episode/` and then replacing the LAST
underscore with `-` plus the zero-padded index plus `_`; when the
rewritten URL contains an underscore, the result decomposes as
`A ++ "-NN_" ++ B` with `A`/`B` independent of the index — so repeated
calls with one index give identical URLs, and the URLs for two indices
(such as 7 and 8) differ only in the numeric token.  No server request
is involved (the construction is a pure function of URL and index). -/
theorem episode_url_construction (u : String)
    (h : '_' ∈ replaceSeq "/info/".data "/episode/".data u.data) :
    ∃ A B,
      replaceSeq "/info/".data "/episode/".data u.data = A ++ '_' :: B ∧
      '_' ∉ B ∧
      ∀ i, (get_episode_url u i).data
        = A ++ ("-" ++ zfill2 i ++ "_").data ++ B := by
  have hrev : '_' ∈ (replaceSeq "/info/".data "/episode/".data
      u.data).reverse := List.mem_reverse.2 h
  rcases replaceFirstChar_split hrev with ⟨l₁, l₂, he, hn, hr⟩
  refine ⟨l₂.reverse, l₁.reverse, ?_, ?_, ?_⟩
  · have h2 := congrArg List.reverse he
    rw [List.reverse_reverse] at h2
    rw [h2]
    simp
  · intro hx
    exact hn (List.mem_reverse.1 hx)
  · intro i
    show (String.mk (replaceFirstChar
        (replaceSeq "/info/".data "/episode/".data u.data).reverse '_'
        ("-" ++ zfill2 i ++ "_").data.reverse).reverse).data = _
    rw [hr]
    simp

/-- Witness for C8's amended theorem at the URL
`https://a/info/10_vostfr`. -/
theorem episode_url_construction_witness :
    ('_' ∈ replaceSeq "/info/".data "/episode/".data
        "https://a/info/10_vostfr".data) ∧
    (∃ A B,
      replaceSeq "/info/".data "/episode/".data
          "https://a/info/10_vostfr".data = A ++ '_' :: B ∧
      '_' ∉ B ∧
      ∀ i, (get_episode_url "https://a/info/10_vostfr" i).data
        = A ++ ("-" ++ zfill2 i ++ "_").data ++ B) :=
  ⟨by decide, episode_url_construction "https://a/info/10_vostfr" (by decide)⟩

/-! ## Read-twice lemmas for derived fields -/

/-- A successful first read of an `Anime` derived field performs at most
one page fetch, and an immediate second read performs no fetch and
returns the identical value. -/
theorem anime_read_twice (f : AnimeField) (a : AnimeState) (w : World)
    (v : AValue) (a1 : AnimeState) (n1 : Nat)
    (h : anime_read f a w = (.ok (v, a1), n1)) :
    n1 ≤ 1 ∧ ∃ a2, anime_read f a1 w = (.ok (v, a2), 0) := by
  cases f with
  | synopsis =>
      rcases hsl : a.synopsis with _ | s
      · rcases hc : a.cache with _ | p
        · rcases hp : ((comm_get_dyna w a.url).1).synopsisText with _ | syn
          · simp [anime_read, aSlot, anime_get_synopsis, anime_get_page,
              Except.map, hc, hsl, hp] at h
          · have hread : anime_read AnimeField.synopsis a w
                = (Except.ok (AValue.vStr syn,
                    { a with cache := some (comm_get_dyna w a.url).1,
                             synopsis := some syn }), 1) := by
                simp [anime_read, aSlot, anime_get_synopsis, anime_get_page,
                  Except.map, hc, hsl, hp]
            rw [hread] at h
            simp only [Prod.mk.injEq, Except.ok.injEq] at h
            obtain ⟨⟨hv, ha1⟩, hn⟩ := h
            subst hv; subst ha1; subst hn
            exact ⟨by omega, ⟨_, rfl⟩⟩
        · rcases hp : p.synopsisText with _ | syn
          · simp [anime_read, aSlot, anime_get_synopsis, anime_get_page,
              Except.map, hc, hsl, hp] at h
          · have hread : anime_read AnimeField.synopsis a w
                = (Except.ok (AValue.vStr syn,
                    { a with cache := some p, synopsis := some syn }), 0) := by
                simp [anime_read, aSlot, anime_get_synopsis, anime_get_page,
                  Except.map, hc, hsl, hp]
            rw [hread] at h
            simp only [Prod.mk.injEq, Except.ok.injEq] at h
            obtain ⟨⟨hv, ha1⟩, hn⟩ := h
            subst hv; subst ha1; subst hn
            exact ⟨by omega, ⟨_, rfl⟩⟩
      · have hread : anime_read AnimeField.synopsis a w
            = (Except.ok (AValue.vStr s, a), 0) := by
            simp [anime_read, aSlot, hsl]
        rw [hread] at h
        simp only [Prod.mk.injEq, Except.ok.injEq] at h
        obtain ⟨⟨hv, ha1⟩, hn⟩ := h
        subst hv; subst ha1; subst hn
        refine ⟨by omega, ⟨a, ?_⟩⟩
        simp [anime_read, aSlot, hsl]
  | data =>
      rcases hsl : a.data with _ | s
      · rcases hc : a.cache with _ | p
        · have hread : anime_read AnimeField.data a w
              = (Except.ok (AValue.vDict
                  (parse_info_items ((comm_get_dyna w a.url).1).infoItems),
                  { a with cache := some (comm_get_dyna w a.url).1,
                           data := some (parse_info_items
                             ((comm_get_dyna w a.url).1).infoItems) }), 1) := by
              simp [anime_read, aSlot, anime_get_data, anime_get_page,
                Except.map, hc, hsl]
          rw [hread] at h
          simp only [Prod.mk.injEq, Except.ok.injEq] at h
          obtain ⟨⟨hv, ha1⟩, hn⟩ := h
          subst hv; subst ha1; subst hn
          exact ⟨by omega, ⟨_, rfl⟩⟩
        · have hread : anime_read AnimeField.data a w
              = (Except.ok (AValue.vDict (parse_info_items p.infoItems),
                  { a with cache := some p,
                           data := some (parse_info_items p.infoItems) }),
                 0) := by
              simp [anime_read, aSlot, anime_get_data, anime_get_page,
                Except.map, hc, hsl]
          rw [hread] at h
          simp only [Prod.mk.injEq, Except.ok.injEq] at h
          obtain ⟨⟨hv, ha1⟩, hn⟩ := h
          subst hv; subst ha1; subst hn
          exact ⟨by omega, ⟨_, rfl⟩⟩
      · have hread : anime_read AnimeField.data a w
            = (Except.ok (AValue.vDict s, a), 0) := by
            simp [anime_read, aSlot, hsl]
        rw [hread] at h
        simp only [Prod.mk.injEq, Except.ok.injEq] at h
        obtain ⟨⟨hv, ha1⟩, hn⟩ := h
        subst hv; subst ha1; subst hn
        refine ⟨by omega, ⟨a, ?_⟩⟩
        simp [anime_read, aSlot, hsl]
  | picture =>
      rcases hsl : a.picture with _ | s
      · rcases hc : a.cache with _ | p
        · rcases hp : ((comm_get_dyna w a.url).1).loadingSrc with _ | src
          · simp [anime_read, aSlot, anime_get_picture, anime_get_page,
              Except.map, hc, hsl, hp] at h
          · have hread : anime_read AnimeField.picture a w
                = (Except.ok (AValue.vImg (mkImage (w.rawGet src).body src),
                    { a with cache := some (comm_get_dyna w a.url).1 }), 1) := by
                simp [anime_read, aSlot, anime_get_picture, anime_get_page,
                  Except.map, hc, hsl, hp]
            rw [hread] at h
            simp only [Prod.mk.injEq, Except.ok.injEq] at h
            obtain ⟨⟨hv, ha1⟩, hn⟩ := h
            subst hv; subst ha1; subst hn
            refine ⟨by omega,
              ⟨{ a with cache := some (comm_get_dyna w a.url).1 }, ?_⟩⟩
            simp [anime_read, aSlot, anime_get_picture, anime_get_page,
              Except.map, hsl, hp]
        · rcases hp : p.loadingSrc with _ | src
          · simp [anime_read, aSlot, anime_get_picture, anime_get_page,
              Except.map, hc, hsl, hp] at h
          · have hread : anime_read AnimeField.picture a w
                = (Except.ok (AValue.vImg (mkImage (w.rawGet src).body src),
                    { a with cache := some p }), 0) := by
                simp [anime_read, aSlot, anime_get_picture, anime_get_page,
                  Except.map, hc, hsl, hp]
            rw [hread] at h
            simp only [Prod.mk.injEq, Except.ok.injEq] at h
            obtain ⟨⟨hv, ha1⟩, hn⟩ := h
            subst hv; subst ha1; subst hn
            refine ⟨by omega, ⟨{ a with cache := some p }, ?_⟩⟩
            simp [anime_read, aSlot, anime_get_picture, anime_get_page,
              Except.map, hsl, hp]
      · have hread : anime_read AnimeField.picture a w
            = (Except.ok (AValue.vImg s, a), 0) := by
            simp [anime_read, aSlot, hsl]
        rw [hread] at h
        simp only [Prod.mk.injEq, Except.ok.injEq] at h
        obtain ⟨⟨hv, ha1⟩, hn⟩ := h
        subst hv; subst ha1; subst hn
        refine ⟨by omega, ⟨a, ?_⟩⟩
        simp [anime_read, aSlot, hsl]
  | poster =>
      rcases hsl : a.poster with _ | s
      · rcases hc : a.cache with _ | p
        · rcases hp : ((comm_get_dyna w a.url).1).headStyle with _ | st
          · simp [anime_read, aSlot, anime_get_poster, anime_get_page,
              Except.map, hc, hsl, hp] at h
          · rcases hps : poster_src_of_style st with _ | src
            · simp [anime_read, aSlot, anime_get_poster, anime_get_page,
                Except.map, hc, hsl, hp, hps] at h
            · have hread : anime_read AnimeField.poster a w
                  = (Except.ok (AValue.vImg (mkImage (w.rawGet src).body src),
                      { a with cache := some (comm_get_dyna w a.url).1 }),
                     1) := by
                  simp [anime_read, aSlot, anime_get_poster, anime_get_page,
                    Except.map, hc, hsl, hp, hps]
              rw [hread] at h
              simp only [Prod.mk.injEq, Except.ok.injEq] at h
              obtain ⟨⟨hv, ha1⟩, hn⟩ := h
              subst hv; subst ha1; subst hn
              refine ⟨by omega,
                ⟨{ a with cache := some (comm_get_dyna w a.url).1 }, ?_⟩⟩
              simp [anime_read, aSlot, anime_get_poster, anime_get_page,
                Except.map, hsl, hp, hps]
        · rcases hp : p.headStyle with _ | st
          · simp [anime_read, aSlot, anime_get_poster, anime_get_page,
              Except.map, hc, hsl, hp] at h
          · rcases hps : poster_src_of_style st with _ | src
            · simp [anime_read, aSlot, anime_get_poster, anime_get_page,
                Except.map, hc, hsl, hp, hps] at h
            · have hread : anime_read AnimeField.poster a w
                  = (Except.ok (AValue.vImg (mkImage (w.rawGet src).body src),
                      { a with cache := some p }), 0) := by
                  simp [anime_read, aSlot, anime_get_poster, anime_get_page,
                    Except.map, hc, hsl, hp, hps]
              rw [hread] at h
              simp only [Prod.mk.injEq, Except.ok.injEq] at h
              obtain ⟨⟨hv, ha1⟩, hn⟩ := h
              subst hv; subst ha1; subst hn
              refine ⟨by omega, ⟨{ a with cache := some p }, ?_⟩⟩
              simp [anime_read, aSlot, anime_get_poster, anime_get_page,
                Except.map, hsl, hp, hps]
      · have hread : anime_read AnimeField.poster a w
            = (Except.ok (AValue.vImg s, a), 0) := by
            simp [anime_read, aSlot, hsl]
        rw [hread] at h
        simp only [Prod.mk.injEq, Except.ok.injEq] at h
        obtain ⟨⟨hv, ha1⟩, hn⟩ := h
        subst hv; subst ha1; subst hn
        refine ⟨by omega, ⟨a, ?_⟩⟩
        simp [anime_read, aSlot, hsl]
  | tags =>
      rcases hsl : a.tags with _ | s
      · rcases hc : a.cache with _ | p
        · rcases hp : ((comm_get_dyna w a.url).1).tagItems with _ | its
          · simp [anime_read, aSlot, anime_get_tags, anime_get_page,
              Except.map, hc, hsl, hp] at h
          · have hread : anime_read AnimeField.tags a w
                = (Except.ok (AValue.vDict
                    (its.map (fun it => (it.1, complete_url it.2))),
                    { a with cache := some (comm_get_dyna w a.url).1,
                             tags := some (its.map
                               (fun it => (it.1, complete_url it.2))) }),
                   1) := by
                simp [anime_read, aSlot, anime_get_tags, anime_get_page,
                  Except.map, hc, hsl, hp]
            rw [hread] at h
            simp only [Prod.mk.injEq, Except.ok.injEq] at h
            obtain ⟨⟨hv, ha1⟩, hn⟩ := h
            subst hv; subst ha1; subst hn
            exact ⟨by omega, ⟨_, rfl⟩⟩
        · rcases hp : p.tagItems with _ | its
          · simp [anime_read, aSlot, anime_get_tags, anime_get_page,
              Except.map, hc, hsl, hp] at h
          · have hread : anime_read AnimeField.tags a w
                = (Except.ok (AValue.vDict
                    (its.map (fun it => (it.1, complete_url it.2))),
                    { a with cache := some p,
                             tags := some (its.map
                               (fun it => (it.1, complete_url it.2))) }),
                   0) := by
                simp [anime_read, aSlot, anime_get_tags, anime_get_page,
                  Except.map, hc, hsl, hp]
            rw [hread] at h
            simp only [Prod.mk.injEq, Except.ok.injEq] at h
            obtain ⟨⟨hv, ha1⟩, hn⟩ := h
            subst hv; subst ha1; subst hn
            exact ⟨by omega, ⟨_, rfl⟩⟩
      · have hread : anime_read AnimeField.tags a w
            = (Except.ok (AValue.vDict s, a), 0) := by
            simp [anime_read, aSlot, hsl]
        rw [hread] at h
        simp only [Prod.mk.injEq, Except.ok.injEq] at h
        obtain ⟨⟨hv, ha1⟩, hn⟩ := h
        subst hv; subst ha1; subst hn
        refine ⟨by omega, ⟨a, ?_⟩⟩
        simp [anime_read, aSlot, hsl]
  | episodes =>
      rcases hsl : a.episodes with _ | s
      · rcases hc : a.cache with _ | p
        · have hread : anime_read AnimeField.episodes a w
              = (Except.ok (AValue.vEps
                  (sorted_episode_links ((comm_get_dyna w a.url).1).episodeLinks),
                  { a with cache := some (comm_get_dyna w a.url).1,
                           episodes := some (sorted_episode_links
                             ((comm_get_dyna w a.url).1).episodeLinks) }),
                 1) := by
              simp [anime_read, aSlot, anime_get_episodes, anime_get_page,
                Except.map, hc, hsl]
          rw [hread] at h
          simp only [Prod.mk.injEq, Except.ok.injEq] at h
          obtain ⟨⟨hv, ha1⟩, hn⟩ := h
          subst hv; subst ha1; subst hn
          exact ⟨by omega, ⟨_, rfl⟩⟩
        · have hread : anime_read AnimeField.episodes a w
              = (Except.ok (AValue.vEps (sorted_episode_links p.episodeLinks),
                  { a with cache := some p,
                           episodes := some (sorted_episode_links
                             p.episodeLinks) }), 0) := by
              simp [anime_read, aSlot, anime_get_episodes, anime_get_page,
                Except.map, hc, hsl]
          rw [hread] at h
          simp only [Prod.mk.injEq, Except.ok.injEq] at h
          obtain ⟨⟨hv, ha1⟩, hn⟩ := h
          subst hv; subst ha1; subst hn
          exact ⟨by omega, ⟨_, rfl⟩⟩
      · have hread : anime_read AnimeField.episodes a w
            = (Except.ok (AValue.vEps s, a), 0) := by
            simp [anime_read, aSlot, hsl]
        rw [hread] at h
        simp only [Prod.mk.injEq, Except.ok.injEq] at h
        obtain ⟨⟨hv, ha1⟩, hn⟩ := h
        subst hv; subst ha1; subst hn
        refine ⟨by omega, ⟨a, ?_⟩⟩
        simp [anime_read, aSlot, hsl]

/-- A successful first read of an `Episode` derived field performs at
most one page fetch, and an immediate second read performs no fetch and
returns the identical value.  (For `poster`, `tags` and `data` a first
read can only succeed when the slot was already populated.) -/
theorem ep_read_twice (f : EpisodeField) (e : EpisodeState)
    (a : AnimeState) (w : World) (v : AValue) (e1 : EpisodeState)
    (a1 : AnimeState) (n1 : Nat)
    (h : ep_read f e a w = (.ok (v, e1, a1), n1)) :
    n1 ≤ 1 ∧ ∃ e2 a2, ep_read f e1 a1 w = (.ok (v, e2, a2), 0) := by
  cases f with
  | picture =>
      rcases hsl : e.picture with _ | s
      · rcases hc : a.cache with _ | p
        · have hread : ep_read EpisodeField.picture e a w
              = (Except.ok
                  (((find_thumb w e.url
                      ((comm_get_dyna w a.url).1).thumbs).map .vImg).getD .vNone,
                    e, { a with cache := some (comm_get_dyna w a.url).1 }),
                 1) := by
              simp [ep_read, eSlot, ep_get_picture, anime_get_page,
                Except.map, hc, hsl]
          rw [hread] at h
          simp only [Prod.mk.injEq, Except.ok.injEq] at h
          obtain ⟨⟨hv, he1, ha1⟩, hn⟩ := h
          subst hv; subst he1; subst ha1; subst hn
          refine ⟨by omega,
            ⟨e, { a with cache := some (comm_get_dyna w a.url).1 }, ?_⟩⟩
          simp [ep_read, eSlot, ep_get_picture, anime_get_page,
            Except.map, hsl]
        · have hread : ep_read EpisodeField.picture e a w
              = (Except.ok
                  (((find_thumb w e.url p.thumbs).map .vImg).getD .vNone,
                    e, { a with cache := some p }), 0) := by
              simp [ep_read, eSlot, ep_get_picture, anime_get_page,
                Except.map, hc, hsl]
          rw [hread] at h
          simp only [Prod.mk.injEq, Except.ok.injEq] at h
          obtain ⟨⟨hv, he1, ha1⟩, hn⟩ := h
          subst hv; subst he1; subst ha1; subst hn
          refine ⟨by omega, ⟨e, { a with cache := some p }, ?_⟩⟩
          simp [ep_read, eSlot, ep_get_picture, anime_get_page,
            Except.map, hsl]
      · have hread : ep_read EpisodeField.picture e a w
            = (Except.ok (AValue.vImg s, e, a), 0) := by
            simp [ep_read, eSlot, hsl]
        rw [hread] at h
        simp only [Prod.mk.injEq, Except.ok.injEq] at h
        obtain ⟨⟨hv, he1, ha1⟩, hn⟩ := h
        subst hv; subst he1; subst ha1; subst hn
        refine ⟨by omega, ⟨e, a, ?_⟩⟩
        simp [ep_read, eSlot, hsl]
  | provider =>
      rcases hsl : e.provider with _ | s
      · rcases hc : e.cache with _ | p
        · rcases hp : ((comm_get_dyna w e.url).1).iframeSrc with _ | src
          · simp [ep_read, eSlot, ep_get_provider, ep_get_page,
              Except.map, hc, hsl, hp] at h
          · rcases hsp : splitSeq "//".data src.data with _ | ⟨x, xs⟩
            · simp [ep_read, eSlot, ep_get_provider, ep_get_page,
                Except.map, hc, hsl, hp, hsp] at h
            · rcases xs with _ | ⟨y, ys⟩
              · simp [ep_read, eSlot, ep_get_provider, ep_get_page,
                  Except.map, hc, hsl, hp, hsp] at h
              · have hread : ep_read EpisodeField.provider e a w
                    = (Except.ok (AValue.vStr src,
                        { e with cache := some (comm_get_dyna w e.url).1,
                                 provider := some src }, a), 1) := by
                    simp [ep_read, eSlot, ep_get_provider, ep_get_page,
                      Except.map, hc, hsl, hp, hsp]
                rw [hread] at h
                simp only [Prod.mk.injEq, Except.ok.injEq] at h
                obtain ⟨⟨hv, he1, ha1⟩, hn⟩ := h
                subst hv; subst he1; subst ha1; subst hn
                exact ⟨by omega, ⟨_, _, rfl⟩⟩
        · rcases hp : p.iframeSrc with _ | src
          · simp [ep_read, eSlot, ep_get_provider, ep_get_page,
              Except.map, hc, hsl, hp] at h
          · rcases hsp : splitSeq "//".data src.data with _ | ⟨x, xs⟩
            · simp [ep_read, eSlot, ep_get_provider, ep_get_page,
                Except.map, hc, hsl, hp, hsp] at h
            · rcases xs with _ | ⟨y, ys⟩
              · simp [ep_read, eSlot, ep_get_provider, ep_get_page,
                  Except.map, hc, hsl, hp, hsp] at h
              · have hread : ep_read EpisodeField.provider e a w
                    = (Except.ok (AValue.vStr src,
                        { e with cache := some p,
                                 provider := some src }, a), 0) := by
                    simp [ep_read, eSlot, ep_get_provider, ep_get_page,
                      Except.map, hc, hsl, hp, hsp]
                rw [hread] at h
                simp only [Prod.mk.injEq, Except.ok.injEq] at h
                obtain ⟨⟨hv, he1, ha1⟩, hn⟩ := h
                subst hv; subst he1; subst ha1; subst hn
                exact ⟨by omega, ⟨_, _, rfl⟩⟩
      · have hread : ep_read EpisodeField.provider e a w
            = (Except.ok (AValue.vStr s, e, a), 0) := by
            simp [ep_read, eSlot, hsl]
        rw [hread] at h
        simp only [Prod.mk.injEq, Except.ok.injEq] at h
        obtain ⟨⟨hv, he1, ha1⟩, hn⟩ := h
        subst hv; subst he1; subst ha1; subst hn
        refine ⟨by omega, ⟨e, a, ?_⟩⟩
        simp [ep_read, eSlot, hsl]
  | poster =>
      rcases hsl : e.poster with _ | s
      · simp [ep_read, eSlot, hsl] at h
      · have hread : ep_read EpisodeField.poster e a w
            = (Except.ok (AValue.vImg s, e, a), 0) := by
            simp [ep_read, eSlot, hsl]
        rw [hread] at h
        simp only [Prod.mk.injEq, Except.ok.injEq] at h
        obtain ⟨⟨hv, he1, ha1⟩, hn⟩ := h
        subst hv; subst he1; subst ha1; subst hn
        refine ⟨by omega, ⟨e, a, ?_⟩⟩
        simp [ep_read, eSlot, hsl]
  | tags =>
      rcases hsl : e.tags with _ | s
      · simp [ep_read, eSlot, hsl] at h
      · have hread : ep_read EpisodeField.tags e a w
            = (Except.ok (AValue.vDict s, e, a), 0) := by
            simp [ep_read, eSlot, hsl]
        rw [hread] at h
        simp only [Prod.mk.injEq, Except.ok.injEq] at h
        obtain ⟨⟨hv, he1, ha1⟩, hn⟩ := h
        subst hv; subst he1; subst ha1; subst hn
        refine ⟨by omega, ⟨e, a, ?_⟩⟩
        simp [ep_read, eSlot, hsl]
  | data =>
      rcases hsl : e.data with _ | s
      · simp [ep_read, eSlot, hsl] at h
      · have hread : ep_read EpisodeField.data e a w
            = (Except.ok (AValue.vDict s, e, a), 0) := by
            simp [ep_read, eSlot, hsl]
        rw [hread] at h
        simp only [Prod.mk.injEq, Except.ok.injEq] at h
        obtain ⟨⟨hv, he1, ha1⟩, hn⟩ := h
        subst hv; subst he1; subst ha1; subst hn
        refine ⟨by omega, ⟨e, a, ?_⟩⟩
        simp [ep_read, eSlot, hsl]

/-- A derived field whose slot is already populated is returned directly:
no resolver call, no page fetch, no state change. -/
theorem slot_hit_no_recompute :
    (∀ (f : AnimeField) (a : AnimeState) (w : World) (v : AValue),
      aSlot f a = some v → anime_read f a w = (.ok (v, a), 0)) ∧
    (∀ (f : EpisodeField) (e : EpisodeState) (a : AnimeState) (w : World)
      (v : AValue),
      eSlot f e = some v → ep_read f e a w = (.ok (v, e, a), 0)) := by
  constructor
  · intro f a w v hv
    cases f <;> simp [anime_read, hv]
  · intro f e a w v hv
    cases f <;> simp [ep_read, hv]

/-! ## C3 -/

/-- C3, counterexample: on a fresh `Episode` (every slot `None`), reading
the derived field `data` raises `AttributeError` — `Episode` lists
`data` in its `auto` set but defines no `get_data`, so
`eval('self.get_data')` fails — and performs no page I/O.  A second read
evaluates identically.  No read of this derived field ever returns a
value, contradicting the claim's "the second read returns a value
identical to the first" for Episode's `data` (likewise `poster` and
`tags`). -/
theorem derived_field_caching_cex :
    ep_read EpisodeField.data (mkEpisode "https://site/episode/09-a_vostfr")
        (mkAnime "https://site/info/x") wOk
      = (.error .attributeError, 0) := by decide

/-- C3, amended: for every derived field of a Show, and for the Episode
fields that have a resolver (`picture`, `provider`) — or whose slot is
already populated — a successful read performs page I/O at most once,
and an immediate second read performs no page I/O and returns the
identical value; a field whose slot is populated is returned directly
with no resolver call and no state change.  Episode's `poster`, `tags`
and `data` have no resolver: with an empty slot, reading them raises
`AttributeError` instead of returning a value. -/
theorem derived_field_caching :
    (∀ (f : AnimeField) (a : AnimeState) (w : World) (v : AValue)
        (a1 : AnimeState) (n1 : Nat),
      anime_read f a w = (.ok (v, a1), n1) →
      n1 ≤ 1 ∧ ∃ a2, anime_read f a1 w = (.ok (v, a2), 0)) ∧
    (∀ (f : EpisodeField) (e : EpisodeState) (a : AnimeState) (w : World)
        (v : AValue) (e1 : EpisodeState) (a1 : AnimeState) (n1 : Nat),
      ep_read f e a w = (.ok (v, e1, a1), n1) →
      n1 ≤ 1 ∧ ∃ e2 a2, ep_read f e1 a1 w = (.ok (v, e2, a2), 0)) ∧
    (∀ (f : AnimeField) (a : AnimeState) (w : World) (v : AValue),
      aSlot f a = some v → anime_read f a w = (.ok (v, a), 0)) ∧
    (∀ (f : EpisodeField) (e : EpisodeState) (a : AnimeState) (w : World)
        (v : AValue),
      eSlot f e = some v → ep_read f e a w = (.ok (v, e, a), 0)) ∧
    (∀ (e : EpisodeState) (a : AnimeState) (w : World),
      e.poster = none →
        ep_read EpisodeField.poster e a w = (.error .attributeError, 0)) ∧
    (∀ (e : EpisodeState) (a : AnimeState) (w : World),
      e.tags = none →
        ep_read EpisodeField.tags e a w = (.error .attributeError, 0)) ∧
    (∀ (e : EpisodeState) (a : AnimeState) (w : World),
      e.data = none →
        ep_read EpisodeField.data e a w = (.error .attributeError, 0)) :=
  ⟨anime_read_twice, ep_read_twice,
   slot_hit_no_recompute.1, slot_hit_no_recompute.2,
   fun e a w h => by simp [ep_read, eSlot, h],
   fun e a w h => by simp [ep_read, eSlot, h],
   fun e a w h => by simp [ep_read, eSlot, h]⟩

/-- Witness for C3's amended theorem: a first read of the synopsis on a
fresh anime in the `wOk` world fetches once and resolves; the theorem
then yields the identical, fetch-free second read. -/
theorem derived_field_caching_witness :
    (anime_read AnimeField.synopsis (mkAnime "https://site/info/x") wOk
      = (.ok (.vStr "a nice synopsis",
          { mkAnime "https://site/info/x" with
              cache := some pageA,
              synopsis := some "a nice synopsis" }), 1)) ∧
    (1 ≤ 1 ∧ ∃ a2,
      anime_read AnimeField.synopsis
        { mkAnime "https://site/info/x" with
            cache := some pageA,
            synopsis := some "a nice synopsis" } wOk
        = (.ok (.vStr "a nice synopsis", a2), 0)) :=
  ⟨by decide,
   derived_field_caching.1 AnimeField.synopsis
     (mkAnime "https://site/info/x") wOk _ _ _ (by decide)⟩

/-! ## Traces of the segment loop -/

/-- The payload bytes of a segment list, concatenated in order. -/
def segBytes (w : World) (segs : List String) : List Nat :=
  segs.flatMap (fun s => (w.rawGet s).body)

/-- The event trace of a fully successful segment loop starting at index
`i`: for each segment, its fetch followed (when the callback is
supplied) by exactly one `(index, total)` callback, strictly before the
next segment's fetch. -/
def okTraceCb (cb : Bool) (total : Nat) : Nat → List String → List DlEv
  | _, [] => []
  | i, s :: rest =>
      DlEv.fetchSeg i s ::
        ((if cb then [DlEv.progressCb i total] else []) ++
          okTraceCb cb total (i + 1) rest)

/-- The segment loop on an all-successful segment list accumulates the
payload bytes in order and emits the interleaved fetch/callback trace. -/
theorem seg_loop_ok (w : World) (cb : Bool) (total : Nat)
    (segs : List String)
    (h : ∀ s ∈ segs, responseOk (w.rawGet s).status = true) :
    ∀ (i : Nat) (acc : List Nat),
      seg_loop w cb total i segs acc
        = (.ok (acc ++ segBytes w segs), okTraceCb cb total i segs) := by
  induction segs with
  | nil => intro i acc; simp [seg_loop, segBytes, okTraceCb]
  | cons s rest ih =>
      intro i acc
      have hs : responseOk (w.rawGet s).status = true := h s (by simp)
      have hrest : ∀ x ∈ rest, responseOk (w.rawGet x).status = true :=
        fun x hx => h x (List.mem_cons_of_mem _ hx)
      simp only [seg_loop, hs, if_true, ih hrest]
      simp [segBytes, okTraceCb, List.append_assoc]

/-- The segment loop aborts at the first non-success segment: the error
carries that segment's decoded body and status, the trace ends at that
fetch, and no bytes survive. -/
theorem seg_loop_fail (w : World) (cb : Bool) (total : Nat)
    (pre : List String) (bad : String) (post : List String)
    (hpre : ∀ s ∈ pre, responseOk (w.rawGet s).status = true)
    (hbad : responseOk (w.rawGet bad).status = false) :
    ∀ (i : Nat) (acc : List Nat),
      seg_loop w cb total i (pre ++ bad :: post) acc
        = (.error (.fetching (w.rawGet bad).text (w.rawGet bad).status),
           okTraceCb cb total i pre ++
             [DlEv.fetchSeg (i + pre.length) bad]) := by
  induction pre with
  | nil =>
      intro i acc
      simp [seg_loop, hbad, okTraceCb]
  | cons s rest ih =>
      intro i acc
      have hs : responseOk (w.rawGet s).status = true := hpre s (by simp)
      have hrest : ∀ x ∈ rest, responseOk (w.rawGet x).status = true :=
        fun x hx => hpre x (List.mem_cons_of_mem _ hx)
      have harith : i + (rest.length + 1) = i + 1 + rest.length := by omega
      simp only [List.cons_append, seg_loop, hs, if_true, List.append_eq]
      rw [ih hrest]
      simp [okTraceCb, List.append_assoc, harith]

/-- A file write never occurs inside the segment-loop trace. -/
theorem fileWrite_not_mem_okTraceCb (p : String) (c : List Nat)
    (cb : Bool) (total : Nat) :
    ∀ (i : Nat) (l : List String),
      DlEv.fileWrite p c ∉ okTraceCb cb total i l := by
  intro i l
  induction l generalizing i with
  | nil => simp [okTraceCb]
  | cons s rest ih =>
      cases cb <;> simp [okTraceCb] <;> exact ih (i + 1)

/-! ## C1 -/

/-- C1: the download pipeline on an all-successful playlist.  Once the
provider and playlist URL have been resolved, `Episode.download` fetches
the segments strictly in playlist order, writes an output file whose
bytes are exactly the concatenation of the segment payloads in that
order (`segBytes`), and — with a callback supplied — the trace is, for
each segment index `i` in order, the fetch of segment `i` immediately
followed by the single callback `(i, total)`, strictly before the fetch
of segment `i+1`; the file write comes last. -/
theorem download_reassembly (w : World) (e : EpisodeState) (path : String)
    (q : QSpec) (ext : Bool) (purl : String) (e' : EpisodeState) (k : Nat)
    (hprov : ep_get_provider e w true false = (.ok (purl, e'), k))
    (plUrl : String)
    (hq : select_quality (w.manifestOf (w.grab purl)) q = .ok plUrl)
    (hsegs : ∀ s ∈ extract_segments (w.rawGet plUrl).text,
      responseOk (w.rawGet s).status = true) :
    ep_download w e path q ext true
      = (.ok (if ext then path ++ ".mp4" else path, e'),
         okTraceCb true (extract_segments (w.rawGet plUrl).text).length 0
             (extract_segments (w.rawGet plUrl).text) ++
           [DlEv.fileWrite (if ext then path ++ ".mp4" else path)
             (segBytes w (extract_segments (w.rawGet plUrl).text))]) := by
  simp only [ep_download, hprov, hq,
    seg_loop_ok w true (extract_segments (w.rawGet plUrl).text).length
      (extract_segments (w.rawGet plUrl).text) hsegs,
    List.nil_append]

/-! ## C2 -/

/-- C2: abort on the first failing segment.  If the segment list
decomposes as `pre ++ bad :: post` with every segment of `pre`
successful and `bad` returning a non-success status, `Episode.download`
raises `FetchingErorr` carrying exactly the failing segment's decoded
body and status code; the trace fetches each `pre` segment once, then
`bad` once, and stops — the segments of `post` are never fetched, there
is no retry, no file-write event occurs, and the accumulated bytes of
`pre` are discarded (the error result carries no payload). -/
theorem download_abort_on_failure (w : World) (e : EpisodeState)
    (path : String) (q : QSpec) (ext cb : Bool) (purl : String)
    (e' : EpisodeState) (k : Nat)
    (hprov : ep_get_provider e w true false = (.ok (purl, e'), k))
    (plUrl : String)
    (hq : select_quality (w.manifestOf (w.grab purl)) q = .ok plUrl)
    (pre : List String) (bad : String) (post : List String)
    (hsp : extract_segments (w.rawGet plUrl).text = pre ++ bad :: post)
    (hpre : ∀ s ∈ pre, responseOk (w.rawGet s).status = true)
    (hbad : responseOk (w.rawGet bad).status = false) :
    ep_download w e path q ext cb
      = (.error (.fetching (w.rawGet bad).text (w.rawGet bad).status),
         okTraceCb cb (pre ++ bad :: post).length 0 pre ++
           [DlEv.fetchSeg pre.length bad]) ∧
    (∀ (p : String) (c : List Nat),
      DlEv.fileWrite p c ∉ (ep_download w e path q ext cb).2) := by
  have hmain : ep_download w e path q ext cb
      = (.error (.fetching (w.rawGet bad).text (w.rawGet bad).status),
         okTraceCb cb (pre ++ bad :: post).length 0 pre ++
           [DlEv.fetchSeg pre.length bad]) := by
    simp only [ep_download, hprov, hq, hsp,
      seg_loop_fail w cb (pre ++ bad :: post).length pre bad post hpre hbad]
    simp
  refine ⟨hmain, ?_⟩
  intro p c hmem
  rw [hmain] at hmem
  rcases List.mem_append.1 hmem with hm | hm
  · exact fileWrite_not_mem_okTraceCb p c cb _ 0 pre hm
  · simp at hm

/-! ## Concrete download worlds for the C1/C2 witnesses -/

/-- A fresh concrete episode. -/
def epW : EpisodeState :=
  mkEpisode "https://site/episode/09-a_vostfr"

/-- `epW` after provider resolution against `pageA`. -/
def epW' : EpisodeState :=
  { epW with cache := some pageA,
             provider := some "https://provider.host/embed/1" }

/-- A world with a three-segment playlist whose fetches all succeed
(payload bytes 10, 11, 12). -/
def wSeg : World :=
  { dynaResp := fun _ => { status := 200, html := pageA },
    rawGet := fun u =>
      if u = "https://cdn/pl.m3u8" then
        { status := 200, body := [],
          text := "#EXTM3U\nhttps://cdn/s0\nhttps://cdn/s1\nhttps://cdn/s2" }
      else if u = "https://cdn/s0" then
        { status := 200, body := [10], text := "A" }
      else if u = "https://cdn/s1" then
        { status := 200, body := [11], text := "B" }
      else if u = "https://cdn/s2" then
        { status := 200, body := [12], text := "C" }
      else { status := 200, body := [], text := "" },
    grab := fun _ => "manifest",
    manifestOf := fun _ => [((1 : Int), "https://cdn/pl.m3u8")] }

/-- Like `wSeg`, but the middle segment (index 1 of 3) fails with status
500 and body `oops`. -/
def wSegFail : World :=
  { dynaResp := fun _ => { status := 200, html := pageA },
    rawGet := fun u =>
      if u = "https://cdn/pl.m3u8" then
        { status := 200, body := [],
          text := "#EXTM3U\nhttps://cdn/s0\nhttps://cdn/s1\nhttps://cdn/s2" }
      else if u = "https://cdn/s0" then
        { status := 200, body := [10], text := "A" }
      else if u = "https://cdn/s1" then
        { status := 500, body := [99], text := "oops" }
      else if u = "https://cdn/s2" then
        { status := 200, body := [12], text := "C" }
      else { status := 200, body := [], text := "" },
    grab := fun _ => "manifest",
    manifestOf := fun _ => [((1 : Int), "https://cdn/pl.m3u8")] }

/-- Witness for C1 on the three-segment world `wSeg`. -/
theorem download_reassembly_witness :
    (ep_get_provider epW wSeg true false
      = (.ok ("https://provider.host/embed/1", epW'), 1)) ∧
    (select_quality (wSeg.manifestOf
        (wSeg.grab "https://provider.host/embed/1")) QSpec.best
      = .ok "https://cdn/pl.m3u8") ∧
    (∀ s ∈ extract_segments (wSeg.rawGet "https://cdn/pl.m3u8").text,
      responseOk (wSeg.rawGet s).status = true) ∧
    ep_download wSeg epW "out" QSpec.best true true
      = (.ok (if true then "out" ++ ".mp4" else "out", epW'),
         okTraceCb true
             (extract_segments (wSeg.rawGet "https://cdn/pl.m3u8").text).length
             0 (extract_segments (wSeg.rawGet "https://cdn/pl.m3u8").text) ++
           [DlEv.fileWrite (if true then "out" ++ ".mp4" else "out")
             (segBytes wSeg
               (extract_segments (wSeg.rawGet "https://cdn/pl.m3u8").text))]) :=
  ⟨by decide, by decide, by decide,
   download_reassembly wSeg epW "out" QSpec.best true
     "https://provider.host/embed/1" epW' 1 (by decide)
     "https://cdn/pl.m3u8" (by decide) (by decide)⟩

/-- Witness for C2 on the world `wSegFail`, where segment 1 of 3 fails. -/
theorem download_abort_on_failure_witness :
    (ep_get_provider epW wSegFail true false
      = (.ok ("https://provider.host/embed/1", epW'), 1)) ∧
    (select_quality (wSegFail.manifestOf
        (wSegFail.grab "https://provider.host/embed/1")) QSpec.best
      = .ok "https://cdn/pl.m3u8") ∧
    (extract_segments (wSegFail.rawGet "https://cdn/pl.m3u8").text
      = ["https://cdn/s0"] ++ "https://cdn/s1" :: ["https://cdn/s2"]) ∧
    (∀ s ∈ ["https://cdn/s0"],
      responseOk (wSegFail.rawGet s).status = true) ∧
    (responseOk (wSegFail.rawGet "https://cdn/s1").status = false) ∧
    (ep_download wSegFail epW "out" QSpec.best true true
      = (.error (.fetching (wSegFail.rawGet "https://cdn/s1").text
          (wSegFail.rawGet "https://cdn/s1").status),
         okTraceCb true
             (["https://cdn/s0"] ++ "https://cdn/s1" ::
               ["https://cdn/s2"]).length 0 ["https://cdn/s0"] ++
           [DlEv.fetchSeg (["https://cdn/s0"] : List String).length
             "https://cdn/s1"]) ∧
      (∀ (p : String) (c : List Nat),
        DlEv.fileWrite p c ∉
          (ep_download wSegFail epW "out" QSpec.best true true).2)) :=
  ⟨by decide, by decide, by decide, by decide, by decide,
   download_abort_on_failure wSegFail epW "out" QSpec.best true true
     "https://provider.host/embed/1" epW' 1 (by decide)
     "https://cdn/pl.m3u8" (by decide)
     ["https://cdn/s0"] "https://cdn/s1" ["https://cdn/s2"]
     (by decide) (by decide) (by decide)⟩

/-! ## C4 -/

/-- C4: evaluation of the resolvers at the failing input (a rendered page
on which the extraction selectors match nothing, world `wEmpty`).  The
`except` blocks of `get_synopsis`, `get_poster`, `get_tags` and
`Episode.get_provider` do catch and log the extraction failure, but each
method then reads a local variable that the failed `try` never assigned
(`self.synopsis = syn`, `session.get(src)`, `self.tags = tags`, the
`provider_name` log line), so the accessor raises
`UnboundLocalError`/`NameError` to the caller instead of returning an
empty value — contradicting the claimed swallow-and-log policy.  (Only
`get_data` — whose `data` dict is initialised before the `try` — and
`Episode.get_picture` actually swallow.) -/
theorem resolver_raises_on_parse_failure :
    (anime_read AnimeField.synopsis (mkAnime "https://site/info/x")
        wEmpty).1 = .error .unboundLocal ∧
    (anime_read AnimeField.picture (mkAnime "https://site/info/x")
        wEmpty).1 = .error .unboundLocal ∧
    (anime_read AnimeField.poster (mkAnime "https://site/info/x")
        wEmpty).1 = .error .unboundLocal ∧
    (anime_read AnimeField.tags (mkAnime "https://site/info/x")
        wEmpty).1 = .error .unboundLocal ∧
    (ep_read EpisodeField.provider
        (mkEpisode "https://site/episode/09-a_vostfr")
        (mkAnime "https://site/info/x") wEmpty).1
      = .error .unboundLocal ∧
    (anime_read AnimeField.data (mkAnime "https://site/info/x")
        wEmpty).1 = .ok (.vDict [],
          { mkAnime "https://site/info/x" with
              cache := some pageBad, data := some [] }) := by
  refine ⟨by decide, by decide, by decide, by decide, by decide, by decide⟩

/-! ## C7 -/

/-- Whether an episode download returned normally. -/
def dlOk : Except Err (String × EpisodeState) → Bool
  | .ok _ => true
  | .error _ => false

/-- The episode listing is deduplicated and ascending by URL, with
exactly the listed links as members. -/
theorem sorted_episode_links_spec (links : List String) :
    List.Sorted urlLe (sorted_episode_links links) ∧
    (sorted_episode_links links).Nodup ∧
    (∀ s, s ∈ sorted_episode_links links ↔ s ∈ links) := by
  refine ⟨List.sorted_insertionSort urlLe _, ?_, ?_⟩
  · exact ((List.perm_insertionSort urlLe _).nodup_iff).2
      (List.nodup_dedup links)
  · intro s
    simp [sorted_episode_links, List.mem_insertionSort, List.mem_dedup]

/-- When every episode download succeeds, the batch loop downloads the
episodes sequentially in listing order, derives each path as
`dir + raw_name + ".mp4"`, emits exactly one pause after every episode
(hence exactly one between successive episodes), and returns the paths
in the same order. -/
theorem batch_loop_ok (w : World) (dir : String) (pause : Nat) (q : QSpec)
    (eps : List String)
    (h : ∀ u ∈ eps, dlOk (ep_download w (mkEpisode u)
      (dir ++ parse_name u ++ ".mp4") q false false).1 = true) :
    batch_loop w dir pause q eps
      = (.ok (eps.map (fun u => dir ++ parse_name u ++ ".mp4")),
         eps.flatMap (fun u =>
           [BatchEv.epDownload u (dir ++ parse_name u ++ ".mp4"),
            BatchEv.pauseEv pause])) := by
  induction eps with
  | nil => simp [batch_loop]
  | cons u rest ih =>
      have hu := h u (by simp)
      have hrest : ∀ x ∈ rest, dlOk (ep_download w (mkEpisode x)
          (dir ++ parse_name x ++ ".mp4") q false false).1 = true :=
        fun x hx => h x (List.mem_cons_of_mem _ hx)
      rcases hr : (ep_download w (mkEpisode u)
          (dir ++ parse_name u ++ ".mp4") q false false).1 with er | r
      · rw [hr] at hu
        simp [dlOk] at hu
      · simp only [batch_loop, hr, ih hrest]
        simp [Except.map]

/-- `Anime.download` is the batch loop run on the resolved episode list
with the normalised directory, returning its outcome, its trace and the
updated anime state. -/
theorem anime_download_eq (w : World) (a : AnimeState) (path : String)
    (pause : Nat) (q : QSpec) (eps : List String) (a1 : AnimeState)
    (k : Nat)
    (heps : anime_get_episodes a w true false = (.ok (eps, a1), k)) :
    anime_download w a path pause q
      = ((batch_loop w (dir_path path) pause q eps).1,
         (batch_loop w (dir_path path) pause q eps).2, a1) := by
  simp only [anime_download, heps]

/-- C7, counterexample: in the concrete world `wOk` (episode listing
`10-b`, `09-a`, duplicate `10-b`; every download succeeds on an empty
segment list), `Anime.download` produces the path
`/dl/09-a_vostfr.mp4` — built from the episode's RAW name
`09-a_vostfr` — whereas the normalized display name is `09 a_vostfr`,
so the path is not derived from the normalized name as claimed. -/
theorem batch_path_raw_name_cex :
    (anime_download wOk (mkAnime "https://site/info/x") "/dl" 5
        QSpec.best).1
      = .ok ["/dl/09-a_vostfr.mp4", "/dl/10-b_vostfr.mp4"] ∧
    format_name (parse_name "https://site/episode/09-a_vostfr")
      = "09 a_vostfr" ∧
    "/dl/09-a_vostfr.mp4"
      ≠ "/dl/" ++ format_name (parse_name "https://site/episode/09-a_vostfr")
          ++ ".mp4" := by
  refine ⟨by decide, by decide, by decide⟩

/-- C7, amended: `Anime.download` iterates the show's episodes in
ascending URL order with duplicates removed, downloads each sequentially
into the given directory at the path `dir + raw_name + ".mp4"` (the
episode's RAW parsed name, not the normalized display name), sleeps one
configurable pause after each episode — hence exactly one pause between
successive episodes — and returns the output paths in that same
order. -/
theorem batch_download_order :
    (∀ links : List String,
      List.Sorted urlLe (sorted_episode_links links) ∧
      (sorted_episode_links links).Nodup ∧
      (∀ s, s ∈ sorted_episode_links links ↔ s ∈ links)) ∧
    (∀ (w : World) (dir : String) (pause : Nat) (q : QSpec)
        (eps : List String),
      (∀ u ∈ eps, dlOk (ep_download w (mkEpisode u)
        (dir ++ parse_name u ++ ".mp4") q false false).1 = true) →
      batch_loop w dir pause q eps
        = (.ok (eps.map (fun u => dir ++ parse_name u ++ ".mp4")),
           eps.flatMap (fun u =>
             [BatchEv.epDownload u (dir ++ parse_name u ++ ".mp4"),
              BatchEv.pauseEv pause]))) ∧
    (∀ (w : World) (a : AnimeState) (path : String) (pause : Nat)
        (q : QSpec) (eps : List String) (a1 : AnimeState) (k : Nat),
      anime_get_episodes a w true false = (.ok (eps, a1), k) →
      anime_download w a path pause q
        = ((batch_loop w (dir_path path) pause q eps).1,
           (batch_loop w (dir_path path) pause q eps).2, a1)) :=
  ⟨sorted_episode_links_spec, batch_loop_ok, anime_download_eq⟩

/-- Witness for C7's amended theorem: the batch loop on the two sorted
episode URLs of `wOk` yields the two raw-name paths in order with one
pause after each. -/
theorem batch_download_order_witness :
    (∀ u ∈ ["https://site/episode/09-a_vostfr",
            "https://site/episode/10-b_vostfr"],
      dlOk (ep_download wOk (mkEpisode u)
        ("/dl/" ++ parse_name u ++ ".mp4") QSpec.best false false).1
        = true) ∧
    batch_loop wOk "/dl/" 5 QSpec.best
        ["https://site/episode/09-a_vostfr",
         "https://site/episode/10-b_vostfr"]
      = (.ok (["https://site/episode/09-a_vostfr",
               "https://site/episode/10-b_vostfr"].map
          (fun u => "/dl/" ++ parse_name u ++ ".mp4")),
         ["https://site/episode/09-a_vostfr",
          "https://site/episode/10-b_vostfr"].flatMap (fun u =>
           [BatchEv.epDownload u ("/dl/" ++ parse_name u ++ ".mp4"),
            BatchEv.pauseEv 5])) :=
  ⟨by decide,
   batch_download_order.2.1 wOk "/dl/" 5 QSpec.best
     ["https://site/episode/09-a_vostfr",
      "https://site/episode/10-b_vostfr"] (by decide)⟩

end NSAPI
